import Mathlib

/-!
Shallow embedding of the `spritebot_storage` crate (src/spritebot_storage/src/lib.rs,
error.rs, animdata_xml.rs).

Modelling conventions:
* An RGBA image (`ImageBuffer<Rgba<u8>, Vec<u8>>`) is a width, a height and a pixel
  function; pixel channel values are `Nat` (bytes in the source; no arithmetic is ever
  performed on channels, only writes of 255/0 and comparisons with 255, so the byte
  range is immaterial).
* `u16`/`u8`/`u32` quantities are `Nat`s; the explicit range checks of the source
  (`try_into` on offsets, durations and sheet dimensions) are modelled as explicit
  comparisons with `2^16`, `2^8`, `2^32`.  The `u32` multiplication computing the
  sheet dimensions is modelled as multiplication modulo `2^32` (release-mode
  wrapping); the out-of-bounds `put_pixel`/`copy_from` panics of the `image` crate
  that such a wrap would then provoke are outside the model, so theorems about the
  packer carry explicit no-overflow hypotheses where the distinction matters.
* The PNG codec, the XML (de)serialisation and VFS path normalisation are external
  collaborators: the virtual file system is a list of (path, image) pairs where a
  write prepends and a read takes the most recent entry, the metadata document is
  passed structurally, and both encode and decode address a sheet through the same
  path string `"/" ++ name ++ "-" ++ kind ++ ".png"`.
* Fallible Rust functions returning `Result<_, SpriteBotStorageError>` become
  `Except SpriteBotStorageError _`.
-/

/-- One RGBA pixel (channel order r, g, b, a as in `Rgba<u8>`). -/
structure Pixel where
  r : Nat
  g : Nat
  b : Nat
  a : Nat
deriving DecidableEq, Repr

/-- The fully transparent pixel, the content of a freshly allocated canvas
(`ImageBuffer::new` zero-initialises). -/
def Pixel.zero : Pixel := ⟨0, 0, 0, 0⟩

/-- Model of `ImageBuffer<Rgba<u8>, Vec<u8>>`: dimensions plus a total pixel
function.  Only the rectangle `[0,width) × [0,height)` is meaningful. -/
structure Image where
  width : Nat
  height : Nat
  pix : Nat → Nat → Pixel

/-- `ImageBuffer::new(w, h)`: a `w × h` canvas of fully transparent pixels. -/
def Image.new (w h : Nat) : Image := ⟨w, h, fun _ _ => Pixel.zero⟩

/-- `img.view(x, y, w, h).to_image()`: the `w × h` sub-image whose pixel `(i, j)`
is the parent pixel `(x + i, y + j)`. -/
def Image.view (img : Image) (x y w h : Nat) : Image :=
  ⟨w, h, fun i j => img.pix (x + i) (y + j)⟩

/-- `GenericImage::put_pixel`: overwrite the pixel at `(x, y)`. -/
def Image.putPixel (img : Image) (x y : Nat) (p : Pixel) : Image :=
  ⟨img.width, img.height, fun i j => if i = x ∧ j = y then p else img.pix i j⟩

/-- `get_pixel_mut` followed by writes to individual channels: merge the pixel at
`(x, y)` through `f`. -/
def Image.mergePixel (img : Image) (x y : Nat) (f : Pixel → Pixel) : Image :=
  ⟨img.width, img.height, fun i j => if i = x ∧ j = y then f (img.pix i j) else img.pix i j⟩

/-- `GenericImage::copy_from(&src, x, y)`: copy every pixel of `src` into the
rectangle with origin `(x, y)`. -/
def Image.copyFrom (img src : Image) (x y : Nat) : Image :=
  ⟨img.width, img.height, fun i j =>
    if x ≤ i ∧ i < x + src.width ∧ y ≤ j ∧ j < y + src.height then
      src.pix (i - x) (j - y)
    else img.pix i j⟩

/-- `enumerate_pixels()`: the pixels in raster order (row-major, x fastest),
as `(x, y, pixel)` triples. -/
def Image.enumeratePixels (img : Image) : List (Nat × Nat × Pixel) :=
  (List.range img.height).flatMap fun y =>
    (List.range img.width).map fun x => (x, y, img.pix x y)

/-- `SpriteBotStorageError` (error.rs), restricted to the variants reachable in the
model; payloads that are foreign errors (`VfsError`, `TryFromIntError`, …) are
dropped or reduced to the contextual strings the variant carries. -/
inductive SpriteBotStorageError where
  | VfsError (path : String)
  | SpriteSizeZero (anim kind side : String)
  | SpriteSizeNotMultiple (anim kind side : String)
  | SpriteSizeNotIdentical (anim : String)
  | InconsistantDuration (anim : String) (frames durations : Nat)
  | ColorNotFoundInPixelData (anim : String) (column row : Nat) (kind color : String)
  | ColorDuplicateInPixelDate (anim : String) (column row : Nat) (kind color : String)
  | TooLargeDuration
  | TooLargeGeneratedSheet
  | InvalidHeadPosition
  | OffsetTooLarge
deriving DecidableEq, Repr

/-- `FrameOffset` (lib.rs): the five anchor coordinates, each a `(u16, u16)` pair. -/
structure FrameOffset where
  head : Nat × Nat
  hand_left : Nat × Nat
  hand_right : Nat × Nat
  center : Nat × Nat
  shadow : Nat × Nat
deriving DecidableEq, Repr

/-- `Frame` (lib.rs): duration byte, cropped image, offsets. -/
structure Frame where
  duration : Nat
  image : Image
  offsets : FrameOffset

/-- `Animation` (lib.rs). -/
structure Animation where
  name : String
  index : Nat
  rush_frame : Option Nat
  hit_frame : Option Nat
  return_frame : Option Nat
  images : List (List Frame)

/-- `Sprite` (lib.rs). -/
structure Sprite where
  shadow_size : Nat
  animations : List Animation

/-- `AnimXML` (animdata_xml.rs): one animation entry of the metadata document. -/
structure AnimXML where
  name : String
  index : Nat
  rush_frame : Option Nat
  hit_frame : Option Nat
  return_frame : Option Nat
  frame_width : Nat
  frame_height : Nat
  durations : List Nat

/-- `AnimDataXML` (animdata_xml.rs). -/
structure AnimDataXML where
  shadow_size : Nat
  anims : List AnimXML

/-- The virtual file system, reduced to the image files: a list of
(path, image) pairs; a write prepends, so the most recent write wins. -/
def Store := List (String × Image)

/-- `vfs.create_file(path)` followed by writing an encoded image: record the
image under the path, shadowing earlier writes. -/
def Store.write (s : Store) (path : String) (img : Image) : Store := (path, img) :: s

/-- `vfs.open_file(path)` followed by the PNG decode: the most recent image
written under the path, if any. -/
def Store.read (s : Store) (path : String) : Option Image :=
  (List.find? (fun e => e.1 = path) s).map (fun e => e.2)

/-- The conventional sheet path `"/{name}-{kind}.png"` used by `get_image` (the
encode side writes `"{name}-{kind}.png"`; the VFS collaborator normalises both
to the same file, so the model uses one spelling). -/
def sheetPath (name kind : String) : String :=
  "/" ++ name ++ "-" ++ kind ++ ".png"

/-- `get_number_of_component_on_axis` (lib.rs 22–44): how many cells of size
`divider` fit on an axis of size `size`; `checked_rem` maps a zero divider to
`SpriteSizeZero`, a nonzero remainder to `SpriteSizeNotMultiple`. -/
def get_number_of_component_on_axis (size divider : Nat) (side_name anim_name image_kind : String) :
    Except SpriteBotStorageError Nat :=
  if divider = 0 then
    .error (.SpriteSizeZero anim_name image_kind side_name)
  else if size % divider ≠ 0 then
    .error (.SpriteSizeNotMultiple anim_name image_kind side_name)
  else
    .ok (size / divider)

/-- `get_image` (lib.rs 51–89): read the sheet `"/{name}-{kind}.png"` from the
VFS and slice it into a line-major grid of `frame_width × frame_height` cells.
The PNG decode is the identity in the model (the image collaborator is assumed
faithful). -/
def get_image (vfs : Store) (name kind : String) (frame_height frame_width : Nat) :
    Except SpriteBotStorageError (List (List Image)) := do
  let path := sheetPath name kind
  let some img := vfs.read path
    | .error (.VfsError path)
  let nb_on_width ← get_number_of_component_on_axis img.width frame_width "width" name kind
  let nb_on_height ← get_number_of_component_on_axis img.height frame_height "height" name kind
  .ok ((List.range nb_on_height).map fun column =>
    (List.range nb_on_width).map fun row =>
      img.view (row * frame_width) (column * frame_height) frame_width frame_height)

/-- The loop body of `find_pixel_in_image` (lib.rs 402–416): scan the pixel list,
failing on a second match, and return the coordinates of the single match if any. -/
def find_pixel_loop (pixels : List (Nat × Nat × Pixel)) (filter : Pixel → Bool)
    (acc : Option (Nat × Nat)) (dup : SpriteBotStorageError) :
    Except SpriteBotStorageError (Option (Nat × Nat)) :=
  match pixels with
  | [] => .ok acc
  | (x, y, p) :: rest =>
    if filter p then
      match acc with
      | some _ => .error dup
      | none => find_pixel_loop rest filter (some (x, y)) dup
    else
      find_pixel_loop rest filter acc dup

/-- `find_pixel_in_image` (lib.rs 393–433): locate the unique pixel satisfying
`filter`; zero matches is `ColorNotFoundInPixelData`, two matches is
`ColorDuplicateInPixelDate`, and each coordinate of the match must fit `u16`
(`OffsetTooLarge` otherwise). -/
def find_pixel_in_image (image : Image) (filter : Pixel → Bool) (anim_name : String)
    (column_nb row_nb : Nat) (image_kind color_text : String) :
    Except SpriteBotStorageError (Nat × Nat) := do
  let r ← find_pixel_loop image.enumeratePixels filter none
    (.ColorDuplicateInPixelDate anim_name column_nb row_nb image_kind color_text)
  match r with
  | some r =>
    if r.1 < 2 ^ 16 then
      if r.2 < 2 ^ 16 then
        .ok r
      else
        .error .OffsetTooLarge
    else
      .error .OffsetTooLarge
  | none =>
    .error (.ColorNotFoundInPixelData anim_name column_nb row_nb image_kind color_text)

/-- The black/head marker predicate: exact equality with `Rgba([0, 0, 0, 255])`. -/
def blackPred (p : Pixel) : Bool := p = ⟨0, 0, 0, 255⟩

/-- The red/hand-left marker predicate: `p.0[0] == 255 && p.0[3] == 255`. -/
def redPred (p : Pixel) : Bool := p.r = 255 ∧ p.a = 255

/-- The green/center marker predicate: `p.0[1] == 255 && p.0[3] == 255`. -/
def greenPred (p : Pixel) : Bool := p.g = 255 ∧ p.a = 255

/-- The blue/hand-right marker predicate: `p.0[2] == 255 && p.0[3] == 255`. -/
def bluePred (p : Pixel) : Bool := p.b = 255 ∧ p.a = 255

/-- The white/shadow marker predicate: exact equality with `[255, 255, 255, 255]`. -/
def whitePred (p : Pixel) : Bool := p = ⟨255, 255, 255, 255⟩

/-- The match on the black/head lookup in `from_images` (lib.rs 443–455): a hit
becomes `some`, the not-found error is tolerated as `none`, any other error
propagates. -/
def black_offset_step (r : Except SpriteBotStorageError (Nat × Nat)) :
    Except SpriteBotStorageError (Option (Nat × Nat)) :=
  match r with
  | .ok r => .ok (some r)
  | .error (.ColorNotFoundInPixelData _ _ _ _ _) => .ok none
  | .error x => .error x

/-- `FrameOffset::from_images` (lib.rs 436–499): decode the five anchors from an
offsets sub-image and a shadow sub-image.  The black marker tolerates zero
matches (falling back to the green/center coordinate); the other four are
required. -/
def FrameOffset.from_images (offset_image shadow_image : Image)
    (column_nb row_nb : Nat) (animation_name : String) :
    Except SpriteBotStorageError FrameOffset := do
  let black_offset ← black_offset_step
    (find_pixel_in_image offset_image blackPred animation_name column_nb row_nb
      "offsets" "black")
  let red_offset ← find_pixel_in_image offset_image redPred animation_name column_nb row_nb
    "offsets" "red"
  let green_offset ← find_pixel_in_image offset_image greenPred animation_name column_nb row_nb
    "offsets" "green"
  let blue_offset ← find_pixel_in_image offset_image bluePred animation_name column_nb row_nb
    "offsets" "blue"
  let shadow_center ← find_pixel_in_image shadow_image whitePred animation_name column_nb row_nb
    "shadows" "white"
  .ok { head := black_offset.getD green_offset
        center := green_offset
        hand_left := red_offset
        hand_right := blue_offset
        shadow := shadow_center }

/-- The `max_size_offset` helper of `generate_sheet` (lib.rs 292–297): grow a
candidate cell size so the offset coordinate lands strictly inside the cell. -/
def max_size_offset (first : Nat × Nat) (offset : Nat × Nat) : Nat × Nat :=
  (max first.1 (offset.1 + 1), max first.2 (offset.2 + 1))

/-- One step of the cell-size computation of `generate_sheet` (lib.rs 298–306):
grow the candidate by one frame's image dimensions, then by its offsets in the
source order center, hand_left, hand_right, head, shadow. -/
def growFrame (s : Nat × Nat) (f : Frame) : Nat × Nat :=
  max_size_offset
    (max_size_offset
      (max_size_offset
        (max_size_offset
          (max_size_offset (max s.1 f.image.width, max s.2 f.image.height) f.offsets.center)
          f.offsets.hand_left)
        f.offsets.hand_right)
      f.offsets.head)
    f.offsets.shadow

/-- The cell size chosen by `generate_sheet` (lib.rs 287–308): the fold of
`growFrame` over every frame of every line, starting from the `(8, 8)` floor. -/
def maxCellSize (a : Animation) : Nat × Nat :=
  a.images.foldl (fun s line => line.foldl growFrame s) (8, 8)

/-- The `max_row` computation of `generate_sheet` (lib.rs 288–290): the maximum
line length, floored at 1. -/
def maxRowCount (a : Animation) : Nat :=
  a.images.foldl (fun m line => max m line.length) 1

/-- The per-frame body of the stamping loop of `generate_sheet` (lib.rs 326–366):
copy the frame image into the anim canvas, stamp the white shadow marker, check
the head/hand collision, then stamp head (overwrite), center, hand-right and
hand-left (channel merges), all at the cell origin `(start_x, start_y)`.
The canvas triple is (anim, offsets, shadow). -/
def stampFrame (canvases : Image × Image × Image) (start_x start_y : Nat) (f : Frame) :
    Except SpriteBotStorageError (Image × Image × Image) :=
  let anim2 := canvases.1.copyFrom f.image start_x start_y
  let shadow2 := canvases.2.2.putPixel (start_x + f.offsets.shadow.1)
    (start_y + f.offsets.shadow.2) ⟨255, 255, 255, 255⟩
  if f.offsets.head = f.offsets.hand_left ∨ f.offsets.head = f.offsets.hand_right then
    .error .InvalidHeadPosition
  else
    let o1 := canvases.2.1.putPixel (start_x + f.offsets.head.1)
      (start_y + f.offsets.head.2) ⟨0, 0, 0, 255⟩
    let o2 := o1.mergePixel (start_x + f.offsets.center.1) (start_y + f.offsets.center.2)
      (fun p => { p with g := 255, a := 255 })
    let o3 := o2.mergePixel (start_x + f.offsets.hand_right.1) (start_y + f.offsets.hand_right.2)
      (fun p => { p with b := 255, a := 255 })
    let o4 := o3.mergePixel (start_x + f.offsets.hand_left.1) (start_y + f.offsets.hand_left.2)
      (fun p => { p with r := 255, a := 255 })
    .ok (anim2, o4, shadow2)

/-- The inner stamping loop of `generate_sheet`: one line of frames, advancing
`start_x` by the cell width after each frame. -/
def stampLine (cell : Nat × Nat) (canvases : Image × Image × Image) (start_x start_y : Nat) :
    List Frame → Except SpriteBotStorageError (Image × Image × Image)
  | [] => .ok canvases
  | f :: rest => do
    let c ← stampFrame canvases start_x start_y f
    stampLine cell c (start_x + cell.1) start_y rest

/-- The outer stamping loop of `generate_sheet` (lib.rs 323–371): lines
top-to-bottom, `start_x` reset to 0 and `start_y` advanced by the cell height
after each line. -/
def stampLines (cell : Nat × Nat) (canvases : Image × Image × Image) (start_y : Nat) :
    List (List Frame) → Except SpriteBotStorageError (Image × Image × Image)
  | [] => .ok canvases
  | line :: rest => do
    let c ← stampLine cell canvases 0 start_y line
    stampLines cell c (start_y + cell.2) rest

/-- `Animation::generate_sheet` (lib.rs 284–374): choose the cell size, check
that the line count and the maximum frames-per-line fit `u32`, allocate the
three canvases (the `u32` dimension products wrap modulo `2^32`), and run the
stamping loop.  Returns (cell size, anim sheet, offsets sheet, shadow sheet). -/
def Animation.generate_sheet (a : Animation) :
    Except SpriteBotStorageError ((Nat × Nat) × Image × Image × Image) := do
  let max_size := maxCellSize a
  let max_row := maxRowCount a
  if 2 ^ 32 ≤ max_row then
    .error .TooLargeGeneratedSheet
  else if 2 ^ 32 ≤ a.images.length then
    .error .TooLargeGeneratedSheet
  else
    let image_dimension := (max_size.1 * max_row % 2 ^ 32, max_size.2 * a.images.length % 2 ^ 32)
    let canvases := (Image.new image_dimension.1 image_dimension.2,
      Image.new image_dimension.1 image_dimension.2,
      Image.new image_dimension.1 image_dimension.2)
    let c ← stampLines max_size canvases 0 a.images
    .ok (max_size, c.1, c.2.1, c.2.2)

/-- The per-frame body of the decode loop of `Sprite::new` (lib.rs 161–187):
zip the three cell images with the declared duration, decode the offsets, and
check the duration fits `u8`.  The zips truncate at the shortest list, exactly
as the Rust iterator zips do. -/
def decodeFrames (anim_name : String) (column_nb : Nat) :
    List Image → List Image → List Image → List Nat → Nat →
    Except SpriteBotStorageError (List Frame)
  | anim :: anims, shadow :: shadows, offset :: offsets, d :: ds, row_nb => do
    let offs ← FrameOffset.from_images offset shadow column_nb row_nb anim_name
    let rest ← decodeFrames anim_name column_nb anims shadows offsets ds (row_nb + 1)
    if d < 2 ^ 8 then
      .ok ({ duration := d, image := anim, offsets := offs } :: rest)
    else
      .error .TooLargeDuration
  | _, _, _, _, _ => .ok []

/-- The per-line body of the decode loop of `Sprite::new` (lib.rs 139–190):
check the three lines have identical frame counts, check the frame count
matches the duration list, then decode the frames. -/
def decodeColumns (anim_name : String) (durations : List Nat) :
    List (List Image) → List (List Image) → List (List Image) → Nat →
    Except SpriteBotStorageError (List (List Frame))
  | column_anims :: anims, column_shadows :: shadows, column_offsets :: offsets, column_nb => do
    if column_anims.length ≠ column_shadows.length ∨
        column_shadows.length ≠ column_offsets.length then
      .error (.SpriteSizeNotIdentical anim_name)
    else if column_anims.length ≠ durations.length then
      .error (.InconsistantDuration anim_name column_anims.length durations.length)
    else do
      let frames ← decodeFrames anim_name column_nb column_anims column_shadows column_offsets
        durations 0
      let rest ← decodeColumns anim_name durations anims shadows offsets (column_nb + 1)
      .ok (frames :: rest)
  | _, _, _, _ => .ok []

/-- The per-animation body of the decode loop of `Sprite::new` (lib.rs 108–199):
slice the three sheets, check the grids have the same line count, and decode
line by line. -/
def decodeAnimation (vfs : Store) (anim_source : AnimXML) :
    Except SpriteBotStorageError Animation := do
  let anim_image ← get_image vfs anim_source.name "Anim"
    anim_source.frame_height anim_source.frame_width
  let shadow_image ← get_image vfs anim_source.name "Shadow"
    anim_source.frame_height anim_source.frame_width
  let offset_image ← get_image vfs anim_source.name "Offsets"
    anim_source.frame_height anim_source.frame_width
  if anim_image.length ≠ shadow_image.length ∨
      shadow_image.length ≠ offset_image.length then
    .error (.SpriteSizeNotIdentical anim_source.name)
  else do
    let images ← decodeColumns anim_source.name anim_source.durations
      anim_image shadow_image offset_image 0
    .ok { name := anim_source.name
          index := anim_source.index
          rush_frame := anim_source.rush_frame
          hit_frame := anim_source.hit_frame
          return_frame := anim_source.return_frame
          images := images }

/-- The animation fold of `Sprite::new`. -/
def decodeAnims (vfs : Store) : List AnimXML → Except SpriteBotStorageError (List Animation)
  | [] => .ok []
  | e :: rest => do
    let a ← decodeAnimation vfs e
    let as ← decodeAnims vfs rest
    .ok (a :: as)

/-- `Sprite::new` (lib.rs 100–206): decode the metadata document plus the image
store into a sprite.  The XML parse is the structural identity in the model. -/
def Sprite.new (animdata_xml : AnimDataXML) (vfs : Store) :
    Except SpriteBotStorageError Sprite := do
  let animations ← decodeAnims vfs animdata_xml.anims
  .ok { shadow_size := animdata_xml.shadow_size, animations := animations }

/-- The per-animation body of `Sprite::write_to_folder` (lib.rs 217–259):
generate the three sheets, write them under the conventional names (in the
source order Anim, Offsets, Shadow), and build the metadata entry, whose
durations are taken from line 0. -/
def encodeAnimation (vfs : Store) (animation : Animation) :
    Except SpriteBotStorageError (AnimXML × Store) := do
  let r ← animation.generate_sheet
  let (segment_size, anim_img, offset_img, shadow_img) := r
  let vfs := vfs.write (sheetPath animation.name "Anim") anim_img
  let vfs := vfs.write (sheetPath animation.name "Offsets") offset_img
  let vfs := vfs.write (sheetPath animation.name "Shadow") shadow_img
  .ok ({ name := animation.name
         index := animation.index
         rush_frame := animation.rush_frame
         hit_frame := animation.hit_frame
         return_frame := animation.return_frame
         frame_width := segment_size.1
         frame_height := segment_size.2
         durations := (animation.images.headD []).map (fun x => x.duration) }, vfs)

/-- The animation fold of `Sprite::write_to_folder`. -/
def encodeAnims (vfs : Store) : List Animation →
    Except SpriteBotStorageError (List AnimXML × Store)
  | [] => .ok ([], vfs)
  | a :: rest => do
    let (entry, vfs2) ← encodeAnimation vfs a
    let (entries, vfs3) ← encodeAnims vfs2 rest
    .ok (entry :: entries, vfs3)

/-- `Sprite::write_to_folder` (lib.rs 208–269): encode every animation into the
store and produce the metadata document (its XML serialisation is the
structural identity in the model). -/
def Sprite.write_to_folder (sp : Sprite) (vfs : Store) :
    Except SpriteBotStorageError (AnimDataXML × Store) := do
  let (entries, vfs2) ← encodeAnims vfs sp.animations
  .ok ({ shadow_size := sp.shadow_size, anims := entries }, vfs2)

/-- A featureless 10×10 sheet, used for the divisibility claims. -/
def sheet10 : Image := Image.new 10 10

/-- A store holding `sheet10` as the Anim sheet of animation "a". -/
def store10 : Store := [(sheetPath "a" "Anim", sheet10)]

/-- A featureless 4×4 sheet, used as a slicing witness. -/
def sheet4 : Image := Image.new 4 4

/-- A store holding `sheet4` as the Anim sheet of animation "a". -/
def store4 : Store := [(sheetPath "a" "Anim", sheet4)]

/-- A marker predicate matches no in-range pixel of the image. -/
def matchesNone (img : Image) (p : Pixel → Bool) : Prop :=
  ∀ x y, x < img.width → y < img.height → p (img.pix x y) = false

/-- A marker predicate matches exactly the in-range pixel `(a, b)`. -/
def matchesExactlyAt (img : Image) (p : Pixel → Bool) (a b : Nat) : Prop :=
  a < img.width ∧ b < img.height ∧
    ∀ x y, x < img.width → y < img.height → (p (img.pix x y) = true ↔ x = a ∧ y = b)

/-- A marker predicate matches (at least) two distinct in-range pixels. -/
def matchesTwice (img : Image) (p : Pixel → Bool) : Prop :=
  ∃ p1 p2 : Nat × Nat, p1 ≠ p2 ∧ p1.1 < img.width ∧ p1.2 < img.height ∧
    p2.1 < img.width ∧ p2.2 < img.height ∧
    p (img.pix p1.1 p1.2) = true ∧ p (img.pix p2.1 p2.2) = true

/-- A marker predicate matches exactly one in-range pixel, whose coordinates fit
`u16` (so `find_pixel_in_image` succeeds on it). -/
def uniqueMatch (img : Image) (p : Pixel → Bool) : Prop :=
  ∃ a b, matchesExactlyAt img p a b ∧ a < 2 ^ 16 ∧ b < 2 ^ 16

/-- The black/head lookup of `from_images` does not fail: the black marker is
either absent or unique (with `u16` coordinates). -/
def blackOk (img : Image) : Prop :=
  matchesNone img blackPred ∨ uniqueMatch img blackPred

instance (img : Image) (p : Pixel → Bool) : Decidable (matchesNone img p) :=
  decidable_of_iff (∀ x, x < img.width → ∀ y, y < img.height → p (img.pix x y) = false)
    ⟨fun h x y hx hy => h x hx y hy, fun h x hx y hy => h x y hx hy⟩

instance (img : Image) (p : Pixel → Bool) (a b : Nat) :
    Decidable (matchesExactlyAt img p a b) :=
  decidable_of_iff (a < img.width ∧ b < img.height ∧
      ∀ x, x < img.width → ∀ y, y < img.height → (p (img.pix x y) = true ↔ x = a ∧ y = b))
    ⟨fun ⟨h1, h2, h⟩ => ⟨h1, h2, fun x y hx hy => h x hx y hy⟩,
     fun ⟨h1, h2, h⟩ => ⟨h1, h2, fun x hx y hy => h x y hx hy⟩⟩

/-- A fully transparent 2×2 sub-image: no marker predicate matches any pixel. -/
def blank2 : Image := Image.new 2 2

/-- A 2×2 offsets sub-image with a red marker at (0,0), a green marker at
(1,0), a blue marker at (0,1) and no black marker. -/
def offCell3 : Image :=
  ⟨2, 2, fun x y =>
    if x = 0 ∧ y = 0 then ⟨255, 0, 0, 255⟩
    else if x = 1 ∧ y = 0 then ⟨0, 255, 0, 255⟩
    else if x = 0 ∧ y = 1 then ⟨0, 0, 255, 255⟩
    else Pixel.zero⟩

/-- A 2×2 shadow sub-image with the white marker at (0,0). -/
def shCell3 : Image :=
  ⟨2, 2, fun x y => if x = 0 ∧ y = 0 then ⟨255, 255, 255, 255⟩ else Pixel.zero⟩

/-- The maximum of a list of naturals (0 for the empty list). -/
def listMax (l : List Nat) : Nat := l.foldr max 0

/-- The horizontal space one frame demands of its cell: its image width and
`x + 1` for each of the five offset x-coordinates. -/
def frameWidthNeed (f : Frame) : Nat :=
  max f.image.width (max (f.offsets.head.1 + 1) (max (f.offsets.hand_left.1 + 1)
    (max (f.offsets.hand_right.1 + 1) (max (f.offsets.center.1 + 1)
      (f.offsets.shadow.1 + 1)))))

/-- The vertical space one frame demands of its cell. -/
def frameHeightNeed (f : Frame) : Nat :=
  max f.image.height (max (f.offsets.head.2 + 1) (max (f.offsets.hand_left.2 + 1)
    (max (f.offsets.hand_right.2 + 1) (max (f.offsets.center.2 + 1)
      (f.offsets.shadow.2 + 1)))))

/-- All frames of an animation, lines concatenated in order. -/
def Animation.allFrames (a : Animation) : List Frame := a.images.flatMap id

/-- A frame whose image is 4×4 and whose five offsets all sit at `(0, 0)`. -/
def frame44 : Frame :=
  { duration := 1, image := Image.new 4 4,
    offsets := { head := (0, 0), hand_left := (0, 0), hand_right := (0, 0),
                 center := (0, 0), shadow := (0, 0) } }

/-- A one-line, one-frame animation whose largest frame is 4×4 with all offsets
at the origin: the claims say it packs into 8×8 cells. -/
def anim44 : Animation :=
  { name := "a", index := 0, rush_frame := none, hit_frame := none,
    return_frame := none, images := [[frame44]] }

/-- The head/hand collision rejected by the stamping loop (lib.rs 333-335). -/
def headCollision (f : Frame) : Prop :=
  f.offsets.head = f.offsets.hand_left ∨ f.offsets.head = f.offsets.hand_right

/-- A frame whose head offset collides with its hand_left offset. -/
def collFrame : Frame :=
  { duration := 1, image := Image.new 1 1,
    offsets := { head := (0, 0), hand_left := (0, 0), hand_right := (1, 1),
                 center := (0, 0), shadow := (0, 0) } }

/-- An animation with one line of `2^32` colliding frames: the frames-per-line
guard fires before the head-collision check. -/
def bigAnim : Animation :=
  { name := "big", index := 0, rush_frame := none, hit_frame := none,
    return_frame := none, images := [List.replicate (2 ^ 32) collFrame] }

/-- An animation with a single empty line. -/
def emptyLineAnim : Animation :=
  { name := "e", index := 0, rush_frame := none, hit_frame := none,
    return_frame := none, images := [[]] }

/-- A 1×2^31 frame with collision-free offsets. -/
def tallFrame : Frame :=
  { duration := 1, image := ⟨1, 2 ^ 31, fun _ _ => Pixel.zero⟩,
    offsets := { head := (0, 0), hand_left := (1, 0), hand_right := (2, 0),
                 center := (0, 0), shadow := (0, 0) } }

/-- Two lines of one `tallFrame` each: the cell height is `2^31`, so the sheet
height `2^31 * 2` does not fit `u32`, yet the frame counts pass the guard. -/
def tallAnim : Animation :=
  { name := "t", index := 0, rush_frame := none, hit_frame := none,
    return_frame := none, images := [[tallFrame], [tallFrame]] }

/-- A collision-free 4×4 frame with pairwise-placed offsets. -/
def okFrame : Frame :=
  { duration := 3, image := Image.new 4 4,
    offsets := { head := (1, 0), hand_left := (2, 0), hand_right := (3, 0),
                 center := (0, 0), shadow := (0, 1) } }

/-- A one-line, one-frame, collision-free animation: the packer accepts it. -/
def okAnim : Animation :=
  { name := "ok", index := 0, rush_frame := none, hit_frame := none,
    return_frame := none, images := [[okFrame]] }

/-- An animation with a single colliding frame. -/
def smallCollAnim : Animation :=
  { name := "c", index := 0, rush_frame := none, hit_frame := none,
    return_frame := none, images := [[collFrame]] }

/-- The dimensions of the three canvases of a stamping state. -/
def canvasDims (c : Image × Image × Image) :
    (Nat × Nat) × (Nat × Nat) × (Nat × Nat) :=
  ((c.1.width, c.1.height), (c.2.1.width, c.2.1.height), (c.2.2.width, c.2.2.height))

/-- An 8×8 blank sheet (one 8×8 cell). -/
def sheet8 : Image := Image.new 8 8

/-- An 8×16 blank sheet (two 8×8 cells stacked). -/
def sheet8x16 : Image := Image.new 8 16

/-- A store whose Shadow sheet has two lines while Anim and Offsets have one. -/
def mismatchStore : Store :=
  [(sheetPath "m" "Anim", sheet8), (sheetPath "m" "Shadow", sheet8x16),
   (sheetPath "m" "Offsets", sheet8)]

/-- The metadata entry for the mismatched animation "m". -/
def mismatchEntry : AnimXML :=
  { name := "m", index := 0, rush_frame := none, hit_frame := none,
    return_frame := none, frame_width := 8, frame_height := 8, durations := [1] }

/-- Every decoded offset coordinate lies strictly inside the frame's own cell
(whose extent is the frame image's dimensions). -/
def offsetsInside (fr : Frame) : Prop :=
  fr.offsets.head.1 < fr.image.width ∧ fr.offsets.head.2 < fr.image.height ∧
  fr.offsets.hand_left.1 < fr.image.width ∧ fr.offsets.hand_left.2 < fr.image.height ∧
  fr.offsets.hand_right.1 < fr.image.width ∧ fr.offsets.hand_right.2 < fr.image.height ∧
  fr.offsets.center.1 < fr.image.width ∧ fr.offsets.center.2 < fr.image.height ∧
  fr.offsets.shadow.1 < fr.image.width ∧ fr.offsets.shadow.2 < fr.image.height

/-- An 8×8 offsets sheet with unique red, green, blue markers and no black. -/
def wOffSheet : Image :=
  ⟨8, 8, fun x y =>
    if x = 0 ∧ y = 0 then ⟨255, 0, 0, 255⟩
    else if x = 1 ∧ y = 0 then ⟨0, 255, 0, 255⟩
    else if x = 2 ∧ y = 0 then ⟨0, 0, 255, 255⟩
    else Pixel.zero⟩

/-- An 8×8 shadow sheet with one white marker. -/
def wShadowSheet : Image :=
  ⟨8, 8, fun x y => if x = 3 ∧ y = 0 then ⟨255, 255, 255, 255⟩ else Pixel.zero⟩

/-- A store holding a decodable single-cell animation "w". -/
def wStore : Store :=
  [(sheetPath "w" "Anim", sheet8), (sheetPath "w" "Shadow", wShadowSheet),
   (sheetPath "w" "Offsets", wOffSheet)]

/-- The metadata document for the decodable animation "w". -/
def wXml : AnimDataXML :=
  { shadow_size := 2,
    anims := [{ name := "w", index := 0, rush_frame := none, hit_frame := none,
                return_frame := none, frame_width := 8, frame_height := 8,
                durations := [5] }] }

/-- What one cell of the generated Anim sheet holds: the frame's image padded
with transparency to the cell extent. -/
def animCellPix (img : Image) (x y : Nat) : Pixel :=
  if x < img.width ∧ y < img.height then img.pix x y else Pixel.zero

/-- What one cell of the generated Offsets sheet holds, built over a
transparent base exactly as the stamping order writes it: the black head pixel
(overwrite), then the green/center, blue/hand-right and red/hand-left channel
merges. -/
def offsetsCellPix (o : FrameOffset) (x y : Nat) : Pixel :=
  let p0 := if x = o.head.1 ∧ y = o.head.2 then (⟨0, 0, 0, 255⟩ : Pixel) else Pixel.zero
  let p1 := if x = o.center.1 ∧ y = o.center.2 then { p0 with g := 255, a := 255 } else p0
  let p2 := if x = o.hand_right.1 ∧ y = o.hand_right.2 then { p1 with b := 255, a := 255 }
    else p1
  if x = o.hand_left.1 ∧ y = o.hand_left.2 then { p2 with r := 255, a := 255 } else p2

/-- What one cell of the generated Shadow sheet holds: a single white pixel at
the shadow anchor. -/
def shadowCellPix (o : FrameOffset) (x y : Nat) : Pixel :=
  if x = o.shadow.1 ∧ y = o.shadow.2 then ⟨255, 255, 255, 255⟩ else Pixel.zero

/-- A decoded frame preserves the original: same duration, same five offsets,
and the same pixels across the original image's extent (the decoded image is
the cell-padded version). -/
def FramePreserved (orig dec : Frame) : Prop :=
  dec.duration = orig.duration ∧ dec.offsets = orig.offsets ∧
  ∀ x y, x < orig.image.width → y < orig.image.height →
    dec.image.pix x y = orig.image.pix x y

/-- A decoded animation preserves the original: identical metadata, the same
grid shape, and every frame preserved. -/
def AnimationPreserved (orig dec : Animation) : Prop :=
  dec.name = orig.name ∧ dec.index = orig.index ∧ dec.rush_frame = orig.rush_frame ∧
  dec.hit_frame = orig.hit_frame ∧ dec.return_frame = orig.return_frame ∧
  dec.images.length = orig.images.length ∧
  ∀ i (hi : i < orig.images.length) (hi2 : i < dec.images.length),
    (dec.images.get ⟨i, hi2⟩).length = (orig.images.get ⟨i, hi⟩).length ∧
    ∀ j (hj : j < (orig.images.get ⟨i, hi⟩).length)
      (hj2 : j < (dec.images.get ⟨i, hi2⟩).length),
      FramePreserved ((orig.images.get ⟨i, hi⟩).get ⟨j, hj⟩)
        ((dec.images.get ⟨i, hi2⟩).get ⟨j, hj2⟩)

/-- A decoded sprite preserves the original: same shadow size and every
animation preserved in order. -/
def SpritePreserved (orig dec : Sprite) : Prop :=
  dec.shadow_size = orig.shadow_size ∧
  dec.animations.length = orig.animations.length ∧
  ∀ k (hk : k < orig.animations.length) (hk2 : k < dec.animations.length),
    AnimationPreserved (orig.animations.get ⟨k, hk⟩) (dec.animations.get ⟨k, hk2⟩)

/-- The well-formedness hypotheses under which the encode/decode round-trip is
lossless: lines of equal positive length (unless there are no lines), all
offset coordinates in `u16` range, durations in `u8` range and uniform across
lines at each frame index, no head/hand collisions, and generated sheet
dimensions that fit `u32`. -/
def AnimationWF (a : Animation) : Prop :=
  (∀ line ∈ a.images, line.length = (a.images.headD []).length) ∧
  (a.images = [] ∨ 1 ≤ (a.images.headD []).length) ∧
  (∀ line ∈ a.images, ∀ f ∈ line,
    f.offsets.head.1 < 2 ^ 16 ∧ f.offsets.head.2 < 2 ^ 16 ∧
    f.offsets.hand_left.1 < 2 ^ 16 ∧ f.offsets.hand_left.2 < 2 ^ 16 ∧
    f.offsets.hand_right.1 < 2 ^ 16 ∧ f.offsets.hand_right.2 < 2 ^ 16 ∧
    f.offsets.center.1 < 2 ^ 16 ∧ f.offsets.center.2 < 2 ^ 16 ∧
    f.offsets.shadow.1 < 2 ^ 16 ∧ f.offsets.shadow.2 < 2 ^ 16) ∧
  (∀ line ∈ a.images, line.map (fun f => f.duration) =
    (a.images.headD []).map (fun f => f.duration)) ∧
  (∀ line ∈ a.images, ∀ f ∈ line, f.duration < 2 ^ 8) ∧
  (∀ line ∈ a.images, ∀ f ∈ line,
    f.offsets.head ≠ f.offsets.hand_left ∧ f.offsets.head ≠ f.offsets.hand_right) ∧
  (maxCellSize a).1 * maxRowCount a < 2 ^ 32 ∧
  (maxCellSize a).2 * a.images.length < 2 ^ 32

/-- A one-animation ragged sprite: two lines of unequal length (1 and 0). -/
def ragAnim : Animation :=
  { name := "r", index := 0, rush_frame := none, hit_frame := none,
    return_frame := none, images := [[okFrame], []] }

/-- The sprite holding `ragAnim`; its offsets satisfy the claim's
`head != hand_left` and `head != hand_right` hypothesis. -/
def ragSprite : Sprite := { shadow_size := 0, animations := [ragAnim] }

/-- The default image used with `List.getD` when indexing decoded cell grids. -/
def dImg : Image := Image.new 0 0

/-- The default frame used with `List.getD` when indexing frame grids. -/
def dFrame : Frame :=
  { duration := 0, image := dImg,
    offsets := { head := (0, 0), hand_left := (0, 0), hand_right := (0, 0),
                 center := (0, 0), shadow := (0, 0) } }

/-- A frame fits inside a cell: its image dimensions are bounded by the cell
extent and all five offset anchors lie strictly inside it (this is what the
cell-size fold of `generate_sheet` guarantees for every frame). -/
def frameFits (cell : Nat × Nat) (f : Frame) : Prop :=
  f.image.width ≤ cell.1 ∧ f.image.height ≤ cell.2 ∧
  f.offsets.head.1 < cell.1 ∧ f.offsets.head.2 < cell.2 ∧
  f.offsets.hand_left.1 < cell.1 ∧ f.offsets.hand_left.2 < cell.2 ∧
  f.offsets.hand_right.1 < cell.1 ∧ f.offsets.hand_right.2 < cell.2 ∧
  f.offsets.center.1 < cell.1 ∧ f.offsets.center.2 < cell.2 ∧
  f.offsets.shadow.1 < cell.1 ∧ f.offsets.shadow.2 < cell.2

/-- The cell-local content of one frame on the three sheets. -/
def cellsPix (f : Frame) (u v : Nat) : Pixel × Pixel × Pixel :=
  (animCellPix f.image u v, offsetsCellPix f.offsets u v, shadowCellPix f.offsets u v)

/-- The content of one stamped line at cell-local row `y`: the frame at column
`x / cell_width`, or transparency beyond the line's frames. -/
def linePix (cell : Nat × Nat) (fs : List Frame) (x y : Nat) : Pixel × Pixel × Pixel :=
  match fs[x / cell.1]? with
  | some f => cellsPix f (x % cell.1) y
  | none => (Pixel.zero, Pixel.zero, Pixel.zero)

/-- The content of the three fully stamped sheets at pixel `(x, y)`. -/
def gridPix (cell : Nat × Nat) (lines : List (List Frame)) (x y : Nat) :
    Pixel × Pixel × Pixel :=
  match lines[y / cell.2]? with
  | some fs => linePix cell fs x (y % cell.2)
  | none => (Pixel.zero, Pixel.zero, Pixel.zero)

/-- The sprite holding `okAnim`: a small well-formed round-trip input. -/
def okSprite : Sprite := { shadow_size := 2, animations := [okAnim] }

/-! ## Grid slicer: helper lemmas -/

theorem axis_ok (size d : Nat) (s a k : String) (hd : d ≠ 0) (hm : size % d = 0) :
    get_number_of_component_on_axis size d s a k = .ok (size / d) := by
  simp [get_number_of_component_on_axis, hd, hm]

theorem get_image_ok (vfs : Store) (img : Image) (name kind : String) (cw ch : Nat)
    (hread : vfs.read (sheetPath name kind) = some img)
    (hcw : cw ≠ 0) (hch : ch ≠ 0)
    (hmw : img.width % cw = 0) (hmh : img.height % ch = 0) :
    get_image vfs name kind ch cw =
      .ok ((List.range (img.height / ch)).map fun column =>
        (List.range (img.width / cw)).map fun row =>
          img.view (row * cw) (column * ch) cw ch) := by
  simp [get_image, hread, axis_ok _ _ _ _ _ hcw hmw, axis_ok _ _ _ _ _ hch hmh]
  rfl

theorem div_mod_decomp_unique (d : Nat) (hd : 0 < d) (q r n : Nat) (hr : r < d)
    (h : q * d + r = n) : q = n / d ∧ r = n % d := by
  subst h
  constructor
  · rw [Nat.mul_comm, Nat.mul_add_div hd, Nat.div_eq_of_lt hr, Nat.add_zero]
  · rw [Nat.add_comm, Nat.add_mul_mod_self_right, Nat.mod_eq_of_lt hr]

/-- C2: for a sheet of size `(w, h)` and cell `(cw, ch)` with `cw > 0`, `ch > 0`,
`w % cw = 0` and `h % ch = 0`, the slicer succeeds with `h / ch` lines of
`w / cw` frames; the frame at `(line, index)` is the `(cw, ch)` sub-image with
pixel origin `(index * cw, line * ch)`; and every sheet pixel is covered by
exactly one frame cell position (disjointness and exhaustiveness). -/
theorem C2_grid_slicing (img : Image) (name kind : String) (cw ch : Nat)
    (hcw : 0 < cw) (hch : 0 < ch) (hmw : img.width % cw = 0) (hmh : img.height % ch = 0) :
    ∃ grid : List (List Image),
      get_image [(sheetPath name kind, img)] name kind ch cw = .ok grid ∧
      grid.length = img.height / ch ∧
      (∀ line ∈ grid, line.length = img.width / cw) ∧
      (∀ (i j : Nat) (hi : i < grid.length) (hj : j < (grid.get ⟨i, hi⟩).length),
        ((grid.get ⟨i, hi⟩).get ⟨j, hj⟩).width = cw ∧
        ((grid.get ⟨i, hi⟩).get ⟨j, hj⟩).height = ch ∧
        ∀ x y, ((grid.get ⟨i, hi⟩).get ⟨j, hj⟩).pix x y = img.pix (j * cw + x) (i * ch + y)) ∧
      (∀ px py, px < img.width → py < img.height →
        ∃! t : Nat × Nat × Nat × Nat,
          t.1 < img.height / ch ∧ t.2.1 < img.width / cw ∧ t.2.2.1 < cw ∧ t.2.2.2 < ch ∧
          t.2.1 * cw + t.2.2.1 = px ∧ t.1 * ch + t.2.2.2 = py) := by
  have hread : Store.read [(sheetPath name kind, img)] (sheetPath name kind) = some img := by
    simp [Store.read, List.find?]
  refine ⟨_, get_image_ok _ img name kind cw ch hread (Nat.pos_iff_ne_zero.mp hcw)
    (Nat.pos_iff_ne_zero.mp hch) hmw hmh, ?_, ?_, ?_, ?_⟩
  · simp
  · intro line hline
    simp only [List.mem_map, List.mem_range] at hline
    obtain ⟨i, _, rfl⟩ := hline
    simp
  · intro i j hi hj
    simp [Image.view]
  · intro px py hpx hpy
    refine ⟨(py / ch, px / cw, px % cw, py % ch), ⟨?_, ?_, ?_, ?_, ?_, ?_⟩, ?_⟩
    · exact Nat.div_lt_div_of_lt_of_dvd (Nat.dvd_of_mod_eq_zero hmh) hpy
    · exact Nat.div_lt_div_of_lt_of_dvd (Nat.dvd_of_mod_eq_zero hmw) hpx
    · exact Nat.mod_lt _ hcw
    · exact Nat.mod_lt _ hch
    · rw [Nat.mul_comm]
      exact Nat.div_add_mod px cw
    · rw [Nat.mul_comm]
      exact Nat.div_add_mod py ch
    · rintro ⟨i, j, x, y⟩ ⟨-, -, hx, hy, hjx, hiy⟩
      obtain ⟨hj1, hx1⟩ := div_mod_decomp_unique cw hcw j x px hx hjx
      obtain ⟨hi1, hy1⟩ := div_mod_decomp_unique ch hch i y py hy hiy
      simp [hj1, hx1, hi1, hy1]

/-- Witness for C2 at a concrete input: a 4×4 sheet with 2×2 cells. -/
theorem C2_grid_slicing_witness :
    0 < 2 ∧ sheet4.width % 2 = 0 ∧ sheet4.height % 2 = 0 ∧
    ∃ grid : List (List Image),
      get_image [(sheetPath "a" "Anim", sheet4)] "a" "Anim" 2 2 = .ok grid ∧
      grid.length = sheet4.height / 2 ∧
      (∀ line ∈ grid, line.length = sheet4.width / 2) ∧
      (∀ (i j : Nat) (hi : i < grid.length) (hj : j < (grid.get ⟨i, hi⟩).length),
        ((grid.get ⟨i, hi⟩).get ⟨j, hj⟩).width = 2 ∧
        ((grid.get ⟨i, hi⟩).get ⟨j, hj⟩).height = 2 ∧
        ∀ x y, ((grid.get ⟨i, hi⟩).get ⟨j, hj⟩).pix x y = sheet4.pix (j * 2 + x) (i * 2 + y)) ∧
      (∀ px py, px < sheet4.width → py < sheet4.height →
        ∃! t : Nat × Nat × Nat × Nat,
          t.1 < sheet4.height / 2 ∧ t.2.1 < sheet4.width / 2 ∧ t.2.2.1 < 2 ∧ t.2.2.2 < 2 ∧
          t.2.1 * 2 + t.2.2.1 = px ∧ t.1 * 2 + t.2.2.2 = py) :=
  ⟨by decide, by decide, by decide,
    C2_grid_slicing sheet4 "a" "Anim" 2 2 (by decide) (by decide) (by decide) (by decide)⟩

/-- C9 counterexample: a 10×10 sheet with cell `(3, 0)` (zero cell height).  The
claim predicts the zero-size error, but the width axis is validated first and
`10 % 3 ≠ 0`, so the slicer fails with the not-multiple error instead. -/
theorem C9_counterexample_zero_height_cell :
    get_image store10 "a" "Anim" 0 3 =
      .error (.SpriteSizeNotMultiple "a" "Anim" "width") ∧
    ¬ ∃ s1 s2 s3 : String, get_image store10 "a" "Anim" 0 3 =
      .error (.SpriteSizeZero s1 s2 s3) := by
  have h : get_image store10 "a" "Anim" 0 3 =
      .error (.SpriteSizeNotMultiple "a" "Anim" "width") := rfl
  refine ⟨h, ?_⟩
  rintro ⟨s1, s2, s3, h2⟩
  rw [h] at h2
  simp at h2

/-- C9 amended: the slicer validates the width axis before the height axis, and
on each axis a zero cell size before divisibility: `cell_width = 0` gives the
zero-size error for "width"; otherwise a width that is not a multiple gives the
not-multiple error for "width"; only then is `cell_height = 0` reported, and
last a non-multiple height.  In particular a 10×10 sheet with cell `(3,3)`
fails with the not-multiple error and with cell `(0,5)` fails with the
zero-size error, as the claim states. -/
theorem C9_divisibility_amended (vfs : Store) (img : Image) (name kind : String) (fh fw : Nat)
    (hread : vfs.read (sheetPath name kind) = some img) :
    (fw = 0 → get_image vfs name kind fh fw = .error (.SpriteSizeZero name kind "width")) ∧
    (fw ≠ 0 → img.width % fw ≠ 0 →
      get_image vfs name kind fh fw = .error (.SpriteSizeNotMultiple name kind "width")) ∧
    (fw ≠ 0 → img.width % fw = 0 → fh = 0 →
      get_image vfs name kind fh fw = .error (.SpriteSizeZero name kind "height")) ∧
    (fw ≠ 0 → img.width % fw = 0 → fh ≠ 0 → img.height % fh ≠ 0 →
      get_image vfs name kind fh fw = .error (.SpriteSizeNotMultiple name kind "height")) := by
  refine ⟨?_, ?_, ?_, ?_⟩
  · intro h0
    simp [get_image, hread, get_number_of_component_on_axis, h0]
    rfl
  · intro h0 hm
    simp [get_image, hread, get_number_of_component_on_axis, h0, hm]
    rfl
  · intro h0 hm hh
    simp [get_image, hread, get_number_of_component_on_axis, h0, hm, hh]
    rfl
  · intro h0 hm hh hmh
    simp [get_image, hread, get_number_of_component_on_axis, h0, hm, hh, hmh]
    rfl

/-- Witness for C9 amended: the claim's own concrete instances, a 10×10 sheet
with cell `(3,3)` (not-multiple) and with cell `(0,5)` (zero-size). -/
theorem C9_divisibility_amended_witness :
    Store.read store10 (sheetPath "a" "Anim") = some sheet10 ∧
    get_image store10 "a" "Anim" 3 3 = .error (.SpriteSizeNotMultiple "a" "Anim" "width") ∧
    get_image store10 "a" "Anim" 5 0 = .error (.SpriteSizeZero "a" "Anim" "width") := by
  have hread : Store.read store10 (sheetPath "a" "Anim") = some sheet10 := rfl
  exact ⟨hread,
    (C9_divisibility_amended store10 sheet10 "a" "Anim" 3 3 hread).2.1 (by decide) (by decide),
    (C9_divisibility_amended store10 sheet10 "a" "Anim" 5 0 hread).1 rfl⟩

/-! ## Marker codec: characterisation of `find_pixel_in_image` -/

theorem find_pixel_loop_some (pixels : List (Nat × Nat × Pixel)) (filter : Pixel → Bool)
    (r : Nat × Nat) (dup : SpriteBotStorageError) :
    find_pixel_loop pixels filter (some r) dup =
      if pixels.countP (fun t => filter t.2.2) = 0 then .ok (some r) else .error dup := by
  induction pixels with
  | nil => simp [find_pixel_loop]
  | cons t rest ih =>
    obtain ⟨x, y, p⟩ := t
    by_cases hp : filter p
    · have hc : List.countP (fun t => filter t.2.2) ((x, y, p) :: rest) =
          List.countP (fun t => filter t.2.2) rest + 1 := by
        simp [List.countP_cons, hp]
      simp [find_pixel_loop, hp, hc]
    · have hc : List.countP (fun t => filter t.2.2) ((x, y, p) :: rest) =
          List.countP (fun t => filter t.2.2) rest := by
        simp [List.countP_cons, hp]
      simp only [show find_pixel_loop ((x, y, p) :: rest) filter (some r) dup =
        find_pixel_loop rest filter (some r) dup by simp [find_pixel_loop, hp], ih, hc]

theorem find_pixel_loop_none (pixels : List (Nat × Nat × Pixel)) (filter : Pixel → Bool)
    (dup : SpriteBotStorageError) :
    find_pixel_loop pixels filter none dup =
      match pixels.filter (fun t => filter t.2.2) with
      | [] => .ok none
      | [t] => .ok (some (t.1, t.2.1))
      | _ => .error dup := by
  induction pixels with
  | nil => simp [find_pixel_loop]
  | cons t rest ih =>
    obtain ⟨x, y, p⟩ := t
    by_cases hp : filter p
    · rw [show find_pixel_loop ((x, y, p) :: rest) filter none dup =
        find_pixel_loop rest filter (some (x, y)) dup by simp [find_pixel_loop, hp]]
      rw [find_pixel_loop_some, List.filter_cons_of_pos (by simpa using hp),
        List.countP_eq_length_filter]
      cases hh : rest.filter (fun t => filter t.2.2) with
      | nil => simp [hh]
      | cons u us => simp [hh]
    · rw [show find_pixel_loop ((x, y, p) :: rest) filter none dup =
        find_pixel_loop rest filter none dup by simp [find_pixel_loop, hp]]
      rw [List.filter_cons_of_neg (by simpa using hp)]
      exact ih

theorem mem_enumeratePixels (img : Image) (t : Nat × Nat × Pixel) :
    t ∈ img.enumeratePixels ↔
      t.1 < img.width ∧ t.2.1 < img.height ∧ t.2.2 = img.pix t.1 t.2.1 := by
  obtain ⟨x, y, p⟩ := t
  simp only [Image.enumeratePixels, List.mem_flatMap, List.mem_map, List.mem_range]
  constructor
  · rintro ⟨y0, hy0, x0, hx0, heq⟩
    obtain ⟨rfl, rfl, rfl⟩ : x0 = x ∧ y0 = y ∧ img.pix x0 y0 = p := by
      simpa using heq
    exact ⟨hx0, hy0, rfl⟩
  · rintro ⟨hx, hy, rfl⟩
    exact ⟨y, hy, x, hx, rfl⟩

theorem filter_range_singleton (w a : Nat) (ha : a < w) (q : Nat → Bool)
    (h : ∀ x, x < w → (q x = true ↔ x = a)) :
    (List.range w).filter q = [a] := by
  induction w with
  | zero => omega
  | succ w ih =>
    rw [List.range_succ, List.filter_append]
    by_cases haw : a = w
    · subst haw
      have h1 : (List.range a).filter q = [] := by
        rw [List.filter_eq_nil_iff]
        intro x hx
        rw [List.mem_range] at hx
        simp [h x (by omega), Nat.ne_of_lt hx]
      have h2 : q a = true := (h a (by omega)).mpr rfl
      simp [h1, h2]
    · have h1 : (List.range w).filter q = [a] :=
        ih (by omega) (fun x hx => h x (by omega))
      have h2 : q w = false := by
        by_contra hq
        have := (h w (by omega)).mp (by simpa using hq)
        omega
      simp [h1, h2]

theorem filter_range_nil (w : Nat) (q : Nat → Bool) (h : ∀ x, x < w → q x = false) :
    (List.range w).filter q = [] := by
  rw [List.filter_eq_nil_iff]
  intro x hx
  rw [List.mem_range] at hx
  simp [h x hx]

theorem filter_flatMap_list {α β : Type} (l : List α) (g : α → List β) (p : β → Bool) :
    (l.flatMap g).filter p = l.flatMap (fun a => (g a).filter p) := by
  induction l with
  | nil => simp
  | cons a rest ih => simp [List.flatMap_cons, List.filter_append, ih]

theorem flatMap_range_nil {α : Type} (h : Nat) (r : Nat → List α)
    (hr : ∀ y, y < h → r y = []) : (List.range h).flatMap r = [] := by
  induction h with
  | zero => simp
  | succ h ih =>
    rw [List.range_succ, List.flatMap_append]
    simp [ih (fun y hy => hr y (by omega)), hr h (by omega)]

theorem flatMap_range_singleton {α : Type} (h b : Nat) (v : α) (hb : b < h) (r : Nat → List α)
    (hr : ∀ y, y < h → r y = if y = b then [v] else []) :
    (List.range h).flatMap r = [v] := by
  induction h with
  | zero => omega
  | succ h ih =>
    rw [List.range_succ, List.flatMap_append]
    by_cases hbh : b = h
    · subst hbh
      have h1 : (List.range b).flatMap r = [] :=
        flatMap_range_nil b r (fun y hy => by simp [hr y (by omega), Nat.ne_of_lt hy])
      simp [h1, hr b (by omega)]
    · have h1 : (List.range h).flatMap r = [v] :=
        ih (by omega) (fun y hy => hr y (by omega))
      have h2 : ¬h = b := fun hh => hbh hh.symm
      simp [h1, hr h (by omega), h2]

theorem filter_map_range_singleton {α : Type} (w a : Nat) (ha : a < w) (f : Nat → α)
    (p : α → Bool) (h : ∀ x, x < w → (p (f x) = true ↔ x = a)) :
    ((List.range w).map f).filter p = [f a] := by
  induction w with
  | zero => omega
  | succ w ih =>
    rw [List.range_succ, List.map_append, List.filter_append]
    by_cases haw : a = w
    · subst haw
      have h1 : ((List.range a).map f).filter p = [] := by
        rw [List.filter_eq_nil_iff]
        intro t ht
        simp only [List.mem_map, List.mem_range] at ht
        obtain ⟨x, hx, rfl⟩ := ht
        simp [h x (by omega), Nat.ne_of_lt hx]
      have h2 : p (f a) = true := (h a (by omega)).mpr rfl
      simp [h1, h2]
    · have h1 : ((List.range w).map f).filter p = [f a] :=
        ih (by omega) (fun x hx => h x (by omega))
      have h2 : p (f w) = false := by
        by_contra hq
        have := (h w (by omega)).mp (by simpa using hq)
        omega
      simp [h1, h2]

theorem filter_map_range_nil {α : Type} (w : Nat) (f : Nat → α) (p : α → Bool)
    (h : ∀ x, x < w → p (f x) = false) :
    ((List.range w).map f).filter p = [] := by
  rw [List.filter_eq_nil_iff]
  intro t ht
  simp only [List.mem_map, List.mem_range] at ht
  obtain ⟨x, hx, rfl⟩ := ht
  simp [h x hx]

/-- If the predicate holds at exactly one in-range position `(a, b)`, the filtered
raster-order pixel list is the singleton at `(a, b)`. -/
theorem enumerate_filter_singleton (img : Image) (filter : Pixel → Bool) (a b : Nat)
    (ha : a < img.width) (hb : b < img.height)
    (h : ∀ x y, x < img.width → y < img.height → (filter (img.pix x y) = true ↔ x = a ∧ y = b)) :
    img.enumeratePixels.filter (fun t => filter t.2.2) = [(a, b, img.pix a b)] := by
  rw [Image.enumeratePixels, filter_flatMap_list]
  refine flatMap_range_singleton img.height b (a, b, img.pix a b) hb _ (fun y hy => ?_)
  by_cases hyb : y = b
  · subst hyb
    rw [if_pos rfl]
    exact filter_map_range_singleton img.width a ha _ _
      (fun x hx => by simpa using h x y hx hy)
  · rw [if_neg hyb]
    refine filter_map_range_nil img.width _ _ (fun x hx => ?_)
    have := h x y hx hy
    simp only [hyb, and_false] at this
    simpa using this

/-- If the predicate holds at no in-range position, the filtered raster-order
pixel list is empty. -/
theorem enumerate_filter_nil (img : Image) (filter : Pixel → Bool)
    (h : ∀ x y, x < img.width → y < img.height → filter (img.pix x y) = false) :
    img.enumeratePixels.filter (fun t => filter t.2.2) = [] := by
  rw [Image.enumeratePixels, filter_flatMap_list]
  refine flatMap_range_nil img.height _ (fun y hy => ?_)
  exact filter_map_range_nil img.width _ _ (fun x hx => by simpa using h x y hx hy)

theorem except_bind_ok {E A B : Type} (a : A) (f : A → Except E B) :
    (Except.ok a >>= f : Except E B) = f a := rfl

theorem except_bind_error {E A B : Type} (e : E) (f : A → Except E B) :
    ((Except.error e : Except E A) >>= f) = Except.error e := rfl

/-- If the predicate holds at exactly the in-range position `(a, b)` (with both
coordinates fitting `u16`), `find_pixel_in_image` returns `(a, b)`. -/
theorem find_pixel_in_image_unique (img : Image) (filter : Pixel → Bool) (a b : Nat)
    (anim : String) (c r0 : Nat) (kind color : String)
    (ha : a < img.width) (hb : b < img.height) (ha16 : a < 2 ^ 16) (hb16 : b < 2 ^ 16)
    (h : ∀ x y, x < img.width → y < img.height → (filter (img.pix x y) = true ↔ x = a ∧ y = b)) :
    find_pixel_in_image img filter anim c r0 kind color = .ok (a, b) := by
  have hl := find_pixel_loop_none img.enumeratePixels filter
    (.ColorDuplicateInPixelDate anim c r0 kind color)
  rw [enumerate_filter_singleton img filter a b ha hb h] at hl
  simp only [] at hl
  simp only [find_pixel_in_image, hl, except_bind_ok]
  rw [if_pos ha16, if_pos hb16]

/-- If the predicate holds at no in-range position, `find_pixel_in_image` fails
with `ColorNotFoundInPixelData`. -/
theorem find_pixel_in_image_not_found (img : Image) (filter : Pixel → Bool)
    (anim : String) (c r0 : Nat) (kind color : String)
    (h : ∀ x y, x < img.width → y < img.height → filter (img.pix x y) = false) :
    find_pixel_in_image img filter anim c r0 kind color =
      .error (.ColorNotFoundInPixelData anim c r0 kind color) := by
  have hl := find_pixel_loop_none img.enumeratePixels filter
    (.ColorDuplicateInPixelDate anim c r0 kind color)
  rw [enumerate_filter_nil img filter h] at hl
  simp only [] at hl
  simp [find_pixel_in_image, hl, except_bind_ok]

/-- If the predicate holds at two distinct in-range positions,
`find_pixel_in_image` fails with `ColorDuplicateInPixelDate`. -/
theorem find_pixel_in_image_dup (img : Image) (filter : Pixel → Bool)
    (anim : String) (c r0 : Nat) (kind color : String) (p1 p2 : Nat × Nat)
    (hne : p1 ≠ p2)
    (h1x : p1.1 < img.width) (h1y : p1.2 < img.height)
    (h2x : p2.1 < img.width) (h2y : p2.2 < img.height)
    (hf1 : filter (img.pix p1.1 p1.2) = true) (hf2 : filter (img.pix p2.1 p2.2) = true) :
    find_pixel_in_image img filter anim c r0 kind color =
      .error (.ColorDuplicateInPixelDate anim c r0 kind color) := by
  have hm1 : (p1.1, p1.2, img.pix p1.1 p1.2) ∈
      img.enumeratePixels.filter (fun t => filter t.2.2) := by
    rw [List.mem_filter, mem_enumeratePixels]
    exact ⟨⟨h1x, h1y, rfl⟩, hf1⟩
  have hm2 : (p2.1, p2.2, img.pix p2.1 p2.2) ∈
      img.enumeratePixels.filter (fun t => filter t.2.2) := by
    rw [List.mem_filter, mem_enumeratePixels]
    exact ⟨⟨h2x, h2y, rfl⟩, hf2⟩
  have hl := find_pixel_loop_none img.enumeratePixels filter
    (.ColorDuplicateInPixelDate anim c r0 kind color)
  cases hh : img.enumeratePixels.filter (fun t => filter t.2.2) with
  | nil =>
    rw [hh] at hm1
    exact absurd hm1 (List.not_mem_nil _)
  | cons u us =>
    cases us with
    | nil =>
      rw [hh] at hm1 hm2
      have e1 : (p1.1, p1.2, img.pix p1.1 p1.2) = u := by simpa using hm1
      have e2 : (p2.1, p2.2, img.pix p2.1 p2.2) = u := by simpa using hm2
      apply absurd (e1.trans e2.symm)
      intro hcontra
      apply hne
      have h1 := congrArg Prod.fst hcontra
      have h2 := congrArg (fun t => t.2.1) hcontra
      exact Prod.ext h1 h2
    | cons v vs =>
      rw [hh] at hl
      simp only [] at hl
      simp [find_pixel_in_image, hl, except_bind_error]

/-- Reduce `from_images` past the black/head lookup: if the black marker is
absent (yielding `none`) or unique (yielding its position), decoding continues
with the four required markers. -/
theorem from_images_eq_tail (off sh : Image) (anim : String) (c r0 : Nat)
    (bres : Option (Nat × Nat))
    (hblack : (matchesNone off blackPred ∧ bres = none) ∨
      (∃ a b, matchesExactlyAt off blackPred a b ∧ a < 2 ^ 16 ∧ b < 2 ^ 16 ∧
        bres = some (a, b))) :
    FrameOffset.from_images off sh c r0 anim = (do
      let red_offset ← find_pixel_in_image off redPred anim c r0 "offsets" "red"
      let green_offset ← find_pixel_in_image off greenPred anim c r0 "offsets" "green"
      let blue_offset ← find_pixel_in_image off bluePred anim c r0 "offsets" "blue"
      let shadow_center ← find_pixel_in_image sh whitePred anim c r0 "shadows" "white"
      Except.ok { head := bres.getD green_offset, center := green_offset,
                  hand_left := red_offset, hand_right := blue_offset,
                  shadow := shadow_center }) := by
  rcases hblack with ⟨hnone, rfl⟩ | ⟨a, b, ⟨ha, hb, hp⟩, ha16, hb16, rfl⟩
  · have hbfind := find_pixel_in_image_not_found off blackPred anim c r0 "offsets" "black" hnone
    simp [FrameOffset.from_images, hbfind, black_offset_step, except_bind_ok]
  · have hbfind := find_pixel_in_image_unique off blackPred a b anim c r0 "offsets" "black"
      ha hb ha16 hb16 hp
    simp [FrameOffset.from_images, hbfind, black_offset_step, except_bind_ok]

/-- Full success characterisation of `from_images`: with the black marker absent
or unique and the four required markers unique, decoding succeeds; `head` is
the black position if present, otherwise the green/center position. -/
theorem from_images_success (off sh : Image) (anim : String) (c r0 : Nat)
    (bres : Option (Nat × Nat))
    (hblack : (matchesNone off blackPred ∧ bres = none) ∨
      (∃ a b, matchesExactlyAt off blackPred a b ∧ a < 2 ^ 16 ∧ b < 2 ^ 16 ∧
        bres = some (a, b)))
    (r1 r2 g1 g2 bl1 bl2 w1 w2 : Nat)
    (hred : matchesExactlyAt off redPred r1 r2) (hr1 : r1 < 2 ^ 16) (hr2 : r2 < 2 ^ 16)
    (hgreen : matchesExactlyAt off greenPred g1 g2) (hg1 : g1 < 2 ^ 16) (hg2 : g2 < 2 ^ 16)
    (hblue : matchesExactlyAt off bluePred bl1 bl2) (hb1 : bl1 < 2 ^ 16) (hb2 : bl2 < 2 ^ 16)
    (hwhite : matchesExactlyAt sh whitePred w1 w2) (hw1 : w1 < 2 ^ 16) (hw2 : w2 < 2 ^ 16) :
    FrameOffset.from_images off sh c r0 anim =
      .ok { head := bres.getD (g1, g2), center := (g1, g2), hand_left := (r1, r2),
            hand_right := (bl1, bl2), shadow := (w1, w2) } := by
  rw [from_images_eq_tail off sh anim c r0 bres hblack]
  obtain ⟨hrx, hry, hrp⟩ := hred
  obtain ⟨hgx, hgy, hgp⟩ := hgreen
  obtain ⟨hbx, hby, hbp⟩ := hblue
  obtain ⟨hwx, hwy, hwp⟩ := hwhite
  rw [find_pixel_in_image_unique off redPred r1 r2 anim c r0 "offsets" "red" hrx hry hr1 hr2 hrp,
    except_bind_ok,
    find_pixel_in_image_unique off greenPred g1 g2 anim c r0 "offsets" "green" hgx hgy hg1 hg2 hgp,
    except_bind_ok,
    find_pixel_in_image_unique off bluePred bl1 bl2 anim c r0 "offsets" "blue" hbx hby hb1 hb2 hbp,
    except_bind_ok,
    find_pixel_in_image_unique sh whitePred w1 w2 anim c r0 "shadows" "white" hwx hwy hw1 hw2 hwp,
    except_bind_ok]

theorem blackOk_elim (off : Image) (h : blackOk off) :
    ∃ bres, (matchesNone off blackPred ∧ bres = none) ∨
      (∃ a b, matchesExactlyAt off blackPred a b ∧ a < 2 ^ 16 ∧ b < 2 ^ 16 ∧
        bres = some (a, b)) := by
  rcases h with hn | ⟨a, b, hex, ha, hb⟩
  · exact ⟨none, .inl ⟨hn, rfl⟩⟩
  · exact ⟨some (a, b), .inr ⟨a, b, hex, ha, hb, rfl⟩⟩

/-- C3 counterexample: on a fully transparent offsets sub-image the black/head
predicate matches zero pixels, yet decoding does not succeed — it fails with
the not-found error for "red" — contradicting the claim that zero black
matches implies success with `head = center`. -/
theorem C3_counterexample_blank_image :
    matchesNone blank2 blackPred ∧
    FrameOffset.from_images blank2 blank2 0 0 "a" =
      .error (.ColorNotFoundInPixelData "a" 0 0 "offsets" "red") ∧
    ∀ offs, FrameOffset.from_images blank2 blank2 0 0 "a" ≠ .ok offs := by
  refine ⟨by decide, rfl, ?_⟩
  intro offs h
  rw [show FrameOffset.from_images blank2 blank2 0 0 "a" =
    .error (.ColorNotFoundInPixelData "a" 0 0 "offsets" "red") from rfl] at h
  exact Except.noConfusion h

/-- C3 amended: the marker predicates are evaluated in the order black (offsets,
duplicates only), red, green, blue (offsets), white (shadow); a required
predicate matching zero pixels fails with `ColorNotFound` and any predicate
matching more than once fails with `ColorDuplicate`, both carrying the
animation name, line, frame index, sheet kind and marker name, provided every
earlier predicate in that order succeeded.  When the black predicate matches
zero pixels and every required predicate matches exactly one pixel (with `u16`
coordinates), decoding succeeds with `head` equal to the `center` coordinate. -/
theorem C3_marker_decoding_amended (off sh : Image) (anim : String) (c r0 : Nat) :
    (matchesTwice off blackPred →
      FrameOffset.from_images off sh c r0 anim =
        .error (.ColorDuplicateInPixelDate anim c r0 "offsets" "black")) ∧
    (blackOk off → matchesNone off redPred →
      FrameOffset.from_images off sh c r0 anim =
        .error (.ColorNotFoundInPixelData anim c r0 "offsets" "red")) ∧
    (blackOk off → matchesTwice off redPred →
      FrameOffset.from_images off sh c r0 anim =
        .error (.ColorDuplicateInPixelDate anim c r0 "offsets" "red")) ∧
    (blackOk off → uniqueMatch off redPred → matchesNone off greenPred →
      FrameOffset.from_images off sh c r0 anim =
        .error (.ColorNotFoundInPixelData anim c r0 "offsets" "green")) ∧
    (blackOk off → uniqueMatch off redPred → matchesTwice off greenPred →
      FrameOffset.from_images off sh c r0 anim =
        .error (.ColorDuplicateInPixelDate anim c r0 "offsets" "green")) ∧
    (blackOk off → uniqueMatch off redPred → uniqueMatch off greenPred →
      matchesNone off bluePred →
      FrameOffset.from_images off sh c r0 anim =
        .error (.ColorNotFoundInPixelData anim c r0 "offsets" "blue")) ∧
    (blackOk off → uniqueMatch off redPred → uniqueMatch off greenPred →
      matchesTwice off bluePred →
      FrameOffset.from_images off sh c r0 anim =
        .error (.ColorDuplicateInPixelDate anim c r0 "offsets" "blue")) ∧
    (blackOk off → uniqueMatch off redPred → uniqueMatch off greenPred →
      uniqueMatch off bluePred → matchesNone sh whitePred →
      FrameOffset.from_images off sh c r0 anim =
        .error (.ColorNotFoundInPixelData anim c r0 "shadows" "white")) ∧
    (blackOk off → uniqueMatch off redPred → uniqueMatch off greenPred →
      uniqueMatch off bluePred → matchesTwice sh whitePred →
      FrameOffset.from_images off sh c r0 anim =
        .error (.ColorDuplicateInPixelDate anim c r0 "shadows" "white")) ∧
    (matchesNone off blackPred → uniqueMatch off redPred → uniqueMatch off greenPred →
      uniqueMatch off bluePred → uniqueMatch sh whitePred →
      ∃ offs, FrameOffset.from_images off sh c r0 anim = .ok offs ∧
        offs.head = offs.center) := by
  refine ⟨?_, ?_, ?_, ?_, ?_, ?_, ?_, ?_, ?_, ?_⟩
  · rintro ⟨p1, p2, hne, h1x, h1y, h2x, h2y, hf1, hf2⟩
    have hb := find_pixel_in_image_dup off blackPred anim c r0 "offsets" "black" p1 p2 hne
      h1x h1y h2x h2y hf1 hf2
    simp [FrameOffset.from_images, hb, black_offset_step, except_bind_error]
  · intro hbl hred
    obtain ⟨bres, hb⟩ := blackOk_elim off hbl
    rw [from_images_eq_tail off sh anim c r0 bres hb,
      find_pixel_in_image_not_found off redPred anim c r0 "offsets" "red" hred,
      except_bind_error]
  · rintro hbl ⟨p1, p2, hne, h1x, h1y, h2x, h2y, hf1, hf2⟩
    obtain ⟨bres, hb⟩ := blackOk_elim off hbl
    rw [from_images_eq_tail off sh anim c r0 bres hb,
      find_pixel_in_image_dup off redPred anim c r0 "offsets" "red" p1 p2 hne
        h1x h1y h2x h2y hf1 hf2,
      except_bind_error]
  · rintro hbl ⟨r1, r2, ⟨hrx, hry, hrp⟩, hr1, hr2⟩ hgreen
    obtain ⟨bres, hb⟩ := blackOk_elim off hbl
    rw [from_images_eq_tail off sh anim c r0 bres hb,
      find_pixel_in_image_unique off redPred r1 r2 anim c r0 "offsets" "red" hrx hry hr1 hr2 hrp,
      except_bind_ok,
      find_pixel_in_image_not_found off greenPred anim c r0 "offsets" "green" hgreen,
      except_bind_error]
  · rintro hbl ⟨r1, r2, ⟨hrx, hry, hrp⟩, hr1, hr2⟩ ⟨p1, p2, hne, h1x, h1y, h2x, h2y, hf1, hf2⟩
    obtain ⟨bres, hb⟩ := blackOk_elim off hbl
    rw [from_images_eq_tail off sh anim c r0 bres hb,
      find_pixel_in_image_unique off redPred r1 r2 anim c r0 "offsets" "red" hrx hry hr1 hr2 hrp,
      except_bind_ok,
      find_pixel_in_image_dup off greenPred anim c r0 "offsets" "green" p1 p2 hne
        h1x h1y h2x h2y hf1 hf2,
      except_bind_error]
  · rintro hbl ⟨r1, r2, ⟨hrx, hry, hrp⟩, hr1, hr2⟩ ⟨g1, g2, ⟨hgx, hgy, hgp⟩, hg1, hg2⟩ hblue
    obtain ⟨bres, hb⟩ := blackOk_elim off hbl
    rw [from_images_eq_tail off sh anim c r0 bres hb,
      find_pixel_in_image_unique off redPred r1 r2 anim c r0 "offsets" "red" hrx hry hr1 hr2 hrp,
      except_bind_ok,
      find_pixel_in_image_unique off greenPred g1 g2 anim c r0 "offsets" "green"
        hgx hgy hg1 hg2 hgp,
      except_bind_ok,
      find_pixel_in_image_not_found off bluePred anim c r0 "offsets" "blue" hblue,
      except_bind_error]
  · rintro hbl ⟨r1, r2, ⟨hrx, hry, hrp⟩, hr1, hr2⟩ ⟨g1, g2, ⟨hgx, hgy, hgp⟩, hg1, hg2⟩
      ⟨p1, p2, hne, h1x, h1y, h2x, h2y, hf1, hf2⟩
    obtain ⟨bres, hb⟩ := blackOk_elim off hbl
    rw [from_images_eq_tail off sh anim c r0 bres hb,
      find_pixel_in_image_unique off redPred r1 r2 anim c r0 "offsets" "red" hrx hry hr1 hr2 hrp,
      except_bind_ok,
      find_pixel_in_image_unique off greenPred g1 g2 anim c r0 "offsets" "green"
        hgx hgy hg1 hg2 hgp,
      except_bind_ok,
      find_pixel_in_image_dup off bluePred anim c r0 "offsets" "blue" p1 p2 hne
        h1x h1y h2x h2y hf1 hf2,
      except_bind_error]
  · rintro hbl ⟨r1, r2, ⟨hrx, hry, hrp⟩, hr1, hr2⟩ ⟨g1, g2, ⟨hgx, hgy, hgp⟩, hg1, hg2⟩
      ⟨bl1, bl2, ⟨hbx, hby, hbp⟩, hb1, hb2⟩ hwhite
    obtain ⟨bres, hb⟩ := blackOk_elim off hbl
    rw [from_images_eq_tail off sh anim c r0 bres hb,
      find_pixel_in_image_unique off redPred r1 r2 anim c r0 "offsets" "red" hrx hry hr1 hr2 hrp,
      except_bind_ok,
      find_pixel_in_image_unique off greenPred g1 g2 anim c r0 "offsets" "green"
        hgx hgy hg1 hg2 hgp,
      except_bind_ok,
      find_pixel_in_image_unique off bluePred bl1 bl2 anim c r0 "offsets" "blue"
        hbx hby hb1 hb2 hbp,
      except_bind_ok,
      find_pixel_in_image_not_found sh whitePred anim c r0 "shadows" "white" hwhite,
      except_bind_error]
  · rintro hbl ⟨r1, r2, ⟨hrx, hry, hrp⟩, hr1, hr2⟩ ⟨g1, g2, ⟨hgx, hgy, hgp⟩, hg1, hg2⟩
      ⟨bl1, bl2, ⟨hbx, hby, hbp⟩, hb1, hb2⟩ ⟨p1, p2, hne, h1x, h1y, h2x, h2y, hf1, hf2⟩
    obtain ⟨bres, hb⟩ := blackOk_elim off hbl
    rw [from_images_eq_tail off sh anim c r0 bres hb,
      find_pixel_in_image_unique off redPred r1 r2 anim c r0 "offsets" "red" hrx hry hr1 hr2 hrp,
      except_bind_ok,
      find_pixel_in_image_unique off greenPred g1 g2 anim c r0 "offsets" "green"
        hgx hgy hg1 hg2 hgp,
      except_bind_ok,
      find_pixel_in_image_unique off bluePred bl1 bl2 anim c r0 "offsets" "blue"
        hbx hby hb1 hb2 hbp,
      except_bind_ok,
      find_pixel_in_image_dup sh whitePred anim c r0 "shadows" "white" p1 p2 hne
        h1x h1y h2x h2y hf1 hf2,
      except_bind_error]
  · rintro hnone ⟨r1, r2, hred, hr1, hr2⟩ ⟨g1, g2, hgreen, hg1, hg2⟩
      ⟨bl1, bl2, hblue, hb1, hb2⟩ ⟨w1, w2, hwhite, hw1, hw2⟩
    refine ⟨_, from_images_success off sh anim c r0 none (.inl ⟨hnone, rfl⟩)
      r1 r2 g1 g2 bl1 bl2 w1 w2 hred hr1 hr2 hgreen hg1 hg2 hblue hb1 hb2
      hwhite hw1 hw2, ?_⟩
    simp

/-- Witness for C3 amended at a concrete input: a 2×2 offsets sub-image with
unique red, green and blue markers and no black marker, and a 2×2 shadow
sub-image with a unique white marker; decoding succeeds and `head` falls back
to the `center` coordinate. -/
theorem C3_marker_decoding_amended_witness :
    matchesNone offCell3 blackPred ∧ uniqueMatch offCell3 redPred ∧
    uniqueMatch offCell3 greenPred ∧ uniqueMatch offCell3 bluePred ∧
    uniqueMatch shCell3 whitePred ∧
    ∃ offs, FrameOffset.from_images offCell3 shCell3 0 0 "a" = .ok offs ∧
      offs.head = offs.center :=
  ⟨by decide, ⟨0, 0, by decide, by decide, by decide⟩,
    ⟨1, 0, by decide, by decide, by decide⟩,
    ⟨0, 1, by decide, by decide, by decide⟩,
    ⟨0, 0, by decide, by decide, by decide⟩,
    (C3_marker_decoding_amended offCell3 shCell3 "a" 0 0).2.2.2.2.2.2.2.2.2
      (by decide)
      ⟨0, 0, by decide, by decide, by decide⟩
      ⟨1, 0, by decide, by decide, by decide⟩
      ⟨0, 1, by decide, by decide, by decide⟩
      ⟨0, 0, by decide, by decide, by decide⟩⟩

/-! ## Sheet packer: the cell-size computation -/

theorem listMax_cons (a : Nat) (l : List Nat) : listMax (a :: l) = max a (listMax l) := rfl

theorem listMax_append (l1 l2 : List Nat) :
    listMax (l1 ++ l2) = max (listMax l1) (listMax l2) := by
  induction l1 with
  | nil => simp [listMax]
  | cons a l ih =>
    simp only [List.cons_append, listMax_cons, ih]
    omega

theorem max_size_offset_fst (s o : Nat × Nat) :
    (max_size_offset s o).1 = max s.1 (o.1 + 1) := rfl

theorem max_size_offset_snd (s o : Nat × Nat) :
    (max_size_offset s o).2 = max s.2 (o.2 + 1) := rfl

theorem growFrame_fst (s : Nat × Nat) (f : Frame) :
    (growFrame s f).1 = max s.1 (frameWidthNeed f) := by
  simp only [growFrame, max_size_offset_fst]
  unfold frameWidthNeed
  omega

theorem growFrame_snd (s : Nat × Nat) (f : Frame) :
    (growFrame s f).2 = max s.2 (frameHeightNeed f) := by
  simp only [growFrame, max_size_offset_snd]
  unfold frameHeightNeed
  omega

theorem growFrame_eq (s : Nat × Nat) (f : Frame) :
    growFrame s f = (max s.1 (frameWidthNeed f), max s.2 (frameHeightNeed f)) := by
  rw [Prod.ext_iff]
  exact ⟨growFrame_fst s f, growFrame_snd s f⟩

theorem foldl_growFrame (l : List Frame) (s : Nat × Nat) :
    l.foldl growFrame s =
      (max s.1 (listMax (l.map frameWidthNeed)), max s.2 (listMax (l.map frameHeightNeed))) := by
  induction l generalizing s with
  | nil =>
    rw [List.foldl_nil, List.map_nil, List.map_nil]
    show s = (max s.1 0, max s.2 0)
    rw [Nat.max_zero, Nat.max_zero]
  | cons f l ih =>
    rw [List.foldl_cons, ih, growFrame_eq, List.map_cons, List.map_cons,
      listMax_cons, listMax_cons, Prod.ext_iff]
    constructor <;> · dsimp only; omega

theorem foldl_lines_growFrame (lines : List (List Frame)) (s : Nat × Nat) :
    lines.foldl (fun s line => line.foldl growFrame s) s =
      (max s.1 (listMax ((lines.flatMap id).map frameWidthNeed)),
       max s.2 (listMax ((lines.flatMap id).map frameHeightNeed))) := by
  induction lines generalizing s with
  | nil =>
    rw [List.foldl_nil, List.flatMap_nil, List.map_nil, List.map_nil]
    show s = (max s.1 0, max s.2 0)
    rw [Nat.max_zero, Nat.max_zero]
  | cons line rest ih =>
    rw [List.foldl_cons, ih, foldl_growFrame, List.flatMap_cons, List.map_append,
      List.map_append, listMax_append, listMax_append, Prod.ext_iff]
    constructor <;> · dsimp only [id]; omega

theorem maxCellSize_eq (a : Animation) :
    maxCellSize a =
      (max 8 (listMax (a.allFrames.map frameWidthNeed)),
       max 8 (listMax (a.allFrames.map frameHeightNeed))) := by
  rw [maxCellSize, Animation.allFrames]
  exact foldl_lines_growFrame a.images (8, 8)

theorem foldl_max_map {α : Type} (l : List α) (g : α → Nat) (init : Nat) :
    l.foldl (fun m x => max m (g x)) init = max init (listMax (l.map g)) := by
  induction l generalizing init with
  | nil => simp [listMax]
  | cons a l ih =>
    rw [List.foldl_cons, ih]
    simp [listMax_cons]
    omega

theorem maxRowCount_eq (a : Animation) :
    maxRowCount a = max 1 (listMax (a.images.map List.length)) :=
  foldl_max_map a.images List.length 1

/-- C4: the cell size chosen by the packer is, componentwise, the maximum of the
`(8, 8)` format floor, every frame image's pixel dimensions, and
`coordinate + 1` for each of the five offset coordinates of every frame; in
particular the animation whose largest frame is 4×4 with all offsets at `(0,0)`
packs into cells of exactly `(8, 8)`. -/
theorem C4_cell_size :
    (∀ a : Animation,
      maxCellSize a =
        (max 8 (listMax (a.allFrames.map frameWidthNeed)),
         max 8 (listMax (a.allFrames.map frameHeightNeed)))) ∧
    maxCellSize anim44 = (8, 8) :=
  ⟨maxCellSize_eq, by decide⟩

/-! ## Sheet packer: the stamping loop and the size guards -/

theorem stampFrame_coll (canvases : Image × Image × Image) (sx sy : Nat) (f : Frame)
    (h : headCollision f) :
    stampFrame canvases sx sy f = .error .InvalidHeadPosition := by
  rw [stampFrame, if_pos (show f.offsets.head = f.offsets.hand_left ∨
    f.offsets.head = f.offsets.hand_right from h)]

theorem stampFrame_no_coll (canvases : Image × Image × Image) (sx sy : Nat) (f : Frame)
    (h : ¬headCollision f) :
    ∃ c, stampFrame canvases sx sy f = .ok c := by
  rw [stampFrame, if_neg (show ¬(f.offsets.head = f.offsets.hand_left ∨
    f.offsets.head = f.offsets.hand_right) from h)]
  exact ⟨_, rfl⟩

theorem stampLine_err (cell : Nat × Nat) (canvases : Image × Image × Image) (sx sy : Nat)
    (frames : List Frame) (h : ∃ f ∈ frames, headCollision f) :
    stampLine cell canvases sx sy frames = .error .InvalidHeadPosition := by
  induction frames generalizing canvases sx with
  | nil =>
    obtain ⟨f, hf, _⟩ := h
    exact absurd hf (List.not_mem_nil f)
  | cons f rest ih =>
    by_cases hc : headCollision f
    · have hs := stampFrame_coll canvases sx sy f hc
      simp [stampLine, hs, except_bind_error]
    · obtain ⟨c, hsc⟩ := stampFrame_no_coll canvases sx sy f hc
      have hrest : ∃ g ∈ rest, headCollision g := by
        obtain ⟨g, hg, hcg⟩ := h
        rcases List.mem_cons.mp hg with rfl | hgr
        · exact absurd hcg hc
        · exact ⟨g, hgr, hcg⟩
      simp [stampLine, hsc, except_bind_ok, ih c (sx + cell.1) hrest]

theorem stampLine_ok (cell : Nat × Nat) (canvases : Image × Image × Image) (sx sy : Nat)
    (frames : List Frame) (h : ∀ f ∈ frames, ¬headCollision f) :
    ∃ c, stampLine cell canvases sx sy frames = .ok c := by
  induction frames generalizing canvases sx with
  | nil => exact ⟨canvases, rfl⟩
  | cons f rest ih =>
    obtain ⟨c, hsc⟩ := stampFrame_no_coll canvases sx sy f (h f (List.mem_cons_self f rest))
    obtain ⟨c2, h2⟩ := ih c (sx + cell.1) (fun g hg => h g (List.mem_cons_of_mem f hg))
    exact ⟨c2, by simp [stampLine, hsc, except_bind_ok, h2]⟩

theorem stampLines_err (cell : Nat × Nat) (canvases : Image × Image × Image) (sy : Nat)
    (lines : List (List Frame)) (h : ∃ line ∈ lines, ∃ f ∈ line, headCollision f) :
    stampLines cell canvases sy lines = .error .InvalidHeadPosition := by
  induction lines generalizing canvases sy with
  | nil =>
    obtain ⟨line, hl, _⟩ := h
    exact absurd hl (List.not_mem_nil line)
  | cons line rest ih =>
    by_cases hc : ∃ f ∈ line, headCollision f
    · have hs := stampLine_err cell canvases 0 sy line hc
      simp [stampLines, hs, except_bind_error]
    · have hline : ∀ f ∈ line, ¬headCollision f := by
        intro f hf hcf
        exact hc ⟨f, hf, hcf⟩
      obtain ⟨c, hsc⟩ := stampLine_ok cell canvases 0 sy line hline
      have hrest : ∃ l2 ∈ rest, ∃ f ∈ l2, headCollision f := by
        obtain ⟨l2, hl2, f, hf, hcf⟩ := h
        rcases List.mem_cons.mp hl2 with rfl | hlr
        · exact absurd ⟨f, hf, hcf⟩ hc
        · exact ⟨l2, hlr, f, hf, hcf⟩
      simp [stampLines, hsc, except_bind_ok, ih c (sy + cell.2) hrest]

theorem stampLines_ok (cell : Nat × Nat) (canvases : Image × Image × Image) (sy : Nat)
    (lines : List (List Frame)) (h : ∀ line ∈ lines, ∀ f ∈ line, ¬headCollision f) :
    ∃ c, stampLines cell canvases sy lines = .ok c := by
  induction lines generalizing canvases sy with
  | nil => exact ⟨canvases, rfl⟩
  | cons line rest ih =>
    obtain ⟨c, hsc⟩ := stampLine_ok cell canvases 0 sy line
      (h line (List.mem_cons_self line rest))
    obtain ⟨c2, h2⟩ := ih c (sy + cell.2) (fun l2 hl2 => h l2 (List.mem_cons_of_mem line hl2))
    exact ⟨c2, by simp [stampLines, hsc, except_bind_ok, h2]⟩

theorem stampLines_ok_or_err (cell : Nat × Nat) (canvases : Image × Image × Image) (sy : Nat)
    (lines : List (List Frame)) :
    (∃ c, stampLines cell canvases sy lines = .ok c) ∨
      stampLines cell canvases sy lines = .error .InvalidHeadPosition := by
  by_cases hc : ∃ line ∈ lines, ∃ f ∈ line, headCollision f
  · exact .inr (stampLines_err cell canvases sy lines hc)
  · refine .inl (stampLines_ok cell canvases sy lines ?_)
    intro line hl f hf hcf
    exact hc ⟨line, hl, f, hf, hcf⟩

theorem generate_sheet_guard (a : Animation) (h : 2 ^ 32 ≤ maxRowCount a) :
    a.generate_sheet = .error .TooLargeGeneratedSheet := by
  simp only [Animation.generate_sheet]
  repeat' split
  all_goals first | rfl | omega

theorem generate_sheet_guard2 (a : Animation) (h1 : maxRowCount a < 2 ^ 32)
    (h2 : 2 ^ 32 ≤ a.images.length) :
    a.generate_sheet = .error .TooLargeGeneratedSheet := by
  simp only [Animation.generate_sheet]
  repeat' split
  all_goals first | rfl | omega

theorem generate_sheet_eq_stamp (a : Animation) (h1 : maxRowCount a < 2 ^ 32)
    (h2 : a.images.length < 2 ^ 32) :
    a.generate_sheet =
      (stampLines (maxCellSize a)
        (Image.new ((maxCellSize a).1 * maxRowCount a % 2 ^ 32)
          ((maxCellSize a).2 * a.images.length % 2 ^ 32),
         Image.new ((maxCellSize a).1 * maxRowCount a % 2 ^ 32)
          ((maxCellSize a).2 * a.images.length % 2 ^ 32),
         Image.new ((maxCellSize a).1 * maxRowCount a % 2 ^ 32)
          ((maxCellSize a).2 * a.images.length % 2 ^ 32))
        0 a.images) >>= fun c => .ok (maxCellSize a, c.1, c.2.1, c.2.2) := by
  simp only [Animation.generate_sheet]
  repeat' split
  all_goals first | rfl | omega

theorem stampFrame_dims (canvases c : Image × Image × Image) (sx sy : Nat) (f : Frame)
    (h : stampFrame canvases sx sy f = .ok c) : canvasDims c = canvasDims canvases := by
  rw [stampFrame] at h
  split at h
  · exact Except.noConfusion h
  · injection h with h2
    subst h2
    rfl

theorem stampLine_dims (cell : Nat × Nat) (canvases c : Image × Image × Image)
    (sx sy : Nat) (frames : List Frame)
    (h : stampLine cell canvases sx sy frames = .ok c) :
    canvasDims c = canvasDims canvases := by
  induction frames generalizing canvases sx with
  | nil =>
    rw [stampLine] at h
    injection h with h2
    subst h2
    rfl
  | cons f rest ih =>
    rw [stampLine] at h
    cases hsf : stampFrame canvases sx sy f with
    | error e =>
      rw [hsf, except_bind_error] at h
      exact Except.noConfusion h
    | ok c1 =>
      rw [hsf, except_bind_ok] at h
      exact (ih c1 (sx + cell.1) h).trans (stampFrame_dims canvases c1 sx sy f hsf)

theorem stampLines_dims (cell : Nat × Nat) (canvases c : Image × Image × Image)
    (sy : Nat) (lines : List (List Frame))
    (h : stampLines cell canvases sy lines = .ok c) :
    canvasDims c = canvasDims canvases := by
  induction lines generalizing canvases sy with
  | nil =>
    rw [stampLines] at h
    injection h with h2
    subst h2
    rfl
  | cons line rest ih =>
    rw [stampLines] at h
    cases hsl : stampLine cell canvases 0 sy line with
    | error e =>
      rw [hsl, except_bind_error] at h
      exact Except.noConfusion h
    | ok c1 =>
      rw [hsl, except_bind_ok] at h
      exact (ih c1 (sy + cell.2) h).trans (stampLine_dims cell canvases c1 0 sy line hsl)

/-- C5 counterexample: the animation with a single empty line is accepted by the
packer and yields 8×8 sheets, but the maximum over its lines of the line's
frame count is 0, so the claimed width `cell_width * max_frames_per_line = 0`
differs from the actual width 8 (the source floors `max_row` at 1). -/
theorem C5_counterexample_empty_line :
    listMax (emptyLineAnim.images.map List.length) = 0 ∧
    (emptyLineAnim.generate_sheet).map (fun r => (r.1, r.2.1.width, r.2.1.height)) =
      .ok ((8, 8), 8, 8) ∧
    (8 : Nat) ≠ 8 * listMax (emptyLineAnim.images.map List.length) := by
  refine ⟨rfl, ?_, by decide⟩
  rw [generate_sheet_eq_stamp emptyLineAnim (by decide) (by decide)]
  rfl

/-- C5 amended: for every animation the packer accepts, all three sheets have
size `(cell_width * max(1, max_frames_per_line) mod 2^32,
cell_height * num_lines mod 2^32)` — the frames-per-line maximum is floored at
1, and the `u32` dimension products wrap. -/
theorem C5_sheet_dimensions_amended (a : Animation)
    (r : (Nat × Nat) × Image × Image × Image) (h : a.generate_sheet = .ok r) :
    r.1 = maxCellSize a ∧
    maxRowCount a = max 1 (listMax (a.images.map List.length)) ∧
    canvasDims r.2 =
      (((maxCellSize a).1 * maxRowCount a % 2 ^ 32,
        (maxCellSize a).2 * a.images.length % 2 ^ 32),
       ((maxCellSize a).1 * maxRowCount a % 2 ^ 32,
        (maxCellSize a).2 * a.images.length % 2 ^ 32),
       ((maxCellSize a).1 * maxRowCount a % 2 ^ 32,
        (maxCellSize a).2 * a.images.length % 2 ^ 32)) := by
  have h1 : maxRowCount a < 2 ^ 32 := by
    by_contra h1
    rw [generate_sheet_guard a (by omega)] at h
    exact Except.noConfusion h
  have h2 : a.images.length < 2 ^ 32 := by
    by_contra h2
    rw [generate_sheet_guard2 a h1 (by omega)] at h
    exact Except.noConfusion h
  rw [generate_sheet_eq_stamp a h1 h2] at h
  cases hs : stampLines (maxCellSize a)
      (Image.new ((maxCellSize a).1 * maxRowCount a % 2 ^ 32)
        ((maxCellSize a).2 * a.images.length % 2 ^ 32),
       Image.new ((maxCellSize a).1 * maxRowCount a % 2 ^ 32)
        ((maxCellSize a).2 * a.images.length % 2 ^ 32),
       Image.new ((maxCellSize a).1 * maxRowCount a % 2 ^ 32)
        ((maxCellSize a).2 * a.images.length % 2 ^ 32))
      0 a.images with
  | error e =>
    rw [hs, except_bind_error] at h
    exact Except.noConfusion h
  | ok c =>
    rw [hs, except_bind_ok] at h
    injection h with h3
    subst h3
    exact ⟨rfl, maxRowCount_eq a, stampLines_dims _ _ _ _ _ hs⟩

/-- Witness for C5 amended at a concrete accepted animation. -/
theorem C5_sheet_dimensions_amended_witness :
    ∃ r, okAnim.generate_sheet = .ok r ∧
      (r.1 = maxCellSize okAnim ∧
       maxRowCount okAnim = max 1 (listMax (okAnim.images.map List.length)) ∧
       canvasDims r.2 =
         (((maxCellSize okAnim).1 * maxRowCount okAnim % 2 ^ 32,
           (maxCellSize okAnim).2 * okAnim.images.length % 2 ^ 32),
          ((maxCellSize okAnim).1 * maxRowCount okAnim % 2 ^ 32,
           (maxCellSize okAnim).2 * okAnim.images.length % 2 ^ 32),
          ((maxCellSize okAnim).1 * maxRowCount okAnim % 2 ^ 32,
           (maxCellSize okAnim).2 * okAnim.images.length % 2 ^ 32))) := by
  have hok : ∃ r, okAnim.generate_sheet = .ok r := by
    rw [generate_sheet_eq_stamp okAnim (by decide) (by decide)]
    exact ⟨_, rfl⟩
  obtain ⟨r, hr⟩ := hok
  exact ⟨r, hr, C5_sheet_dimensions_amended okAnim r hr⟩

/-- C6 counterexample: two lines of one 1×2^31 frame give a cell height of
`2^31`, so the sheet height `2^31 * 2 = 2^32` does not fit the 32-bit range,
yet the packer does not fail with `TooLargeGeneratedSheet`: the guard checks
only that the line count and the frames-per-line maximum fit `u32` (in the
release build the dimension product wraps and the subsequent out-of-bounds
canvas writes panic; no `TooLargeGeneratedSheet` error is ever returned). -/
theorem C6_counterexample_dimension_overflow :
    2 ^ 32 ≤ (maxCellSize tallAnim).2 * tallAnim.images.length ∧
    tallAnim.generate_sheet ≠ .error .TooLargeGeneratedSheet := by
  constructor
  · decide
  · intro h
    have hok : ∃ r, tallAnim.generate_sheet = .ok r := by
      rw [generate_sheet_eq_stamp tallAnim (by decide) (by decide)]
      exact ⟨_, rfl⟩
    obtain ⟨r, hr⟩ := hok
    rw [hr] at h
    exact Except.noConfusion h

/-- C6 amended: the packer fails with `TooLargeGeneratedSheet` exactly when the
frames-per-line maximum (floored at 1) or the line count does not fit `u32` —
the guard checks these counts, not the dimension products — and, when the
counts fit, it fails with `InvalidHeadPosition` exactly when some frame's head
offset equals one of its hand offsets. -/
theorem C6_too_large_guard_amended (a : Animation) :
    (a.generate_sheet = .error .TooLargeGeneratedSheet ↔
      2 ^ 32 ≤ maxRowCount a ∨ 2 ^ 32 ≤ a.images.length) ∧
    (maxRowCount a < 2 ^ 32 → a.images.length < 2 ^ 32 →
      (a.generate_sheet = .error .InvalidHeadPosition ↔
        ∃ line ∈ a.images, ∃ f ∈ line, headCollision f)) := by
  constructor
  · constructor
    · intro h
      by_contra hno
      push_neg at hno
      obtain ⟨h1, h2⟩ := hno
      rw [generate_sheet_eq_stamp a h1 h2] at h
      rcases stampLines_ok_or_err (maxCellSize a)
          (Image.new ((maxCellSize a).1 * maxRowCount a % 2 ^ 32)
            ((maxCellSize a).2 * a.images.length % 2 ^ 32),
           Image.new ((maxCellSize a).1 * maxRowCount a % 2 ^ 32)
            ((maxCellSize a).2 * a.images.length % 2 ^ 32),
           Image.new ((maxCellSize a).1 * maxRowCount a % 2 ^ 32)
            ((maxCellSize a).2 * a.images.length % 2 ^ 32))
          0 a.images with ⟨c, hc⟩ | hc
      · rw [hc, except_bind_ok] at h
        exact Except.noConfusion h
      · rw [hc, except_bind_error] at h
        injection h with h3
        exact SpriteBotStorageError.noConfusion h3
    · intro h
      rcases h with h | h
      · exact generate_sheet_guard a h
      · by_cases h1 : 2 ^ 32 ≤ maxRowCount a
        · exact generate_sheet_guard a h1
        · exact generate_sheet_guard2 a (by omega) h
  · intro h1 h2
    rw [generate_sheet_eq_stamp a h1 h2]
    constructor
    · intro h
      by_contra hno
      push_neg at hno
      obtain ⟨c, hc⟩ := stampLines_ok (maxCellSize a)
        (Image.new ((maxCellSize a).1 * maxRowCount a % 2 ^ 32)
          ((maxCellSize a).2 * a.images.length % 2 ^ 32),
         Image.new ((maxCellSize a).1 * maxRowCount a % 2 ^ 32)
          ((maxCellSize a).2 * a.images.length % 2 ^ 32),
         Image.new ((maxCellSize a).1 * maxRowCount a % 2 ^ 32)
          ((maxCellSize a).2 * a.images.length % 2 ^ 32))
        0 a.images (fun line hl f hf => hno line hl f hf)
      rw [hc, except_bind_ok] at h
      exact Except.noConfusion h
    · intro hcoll
      rw [stampLines_err _ _ _ _ hcoll, except_bind_error]

/-- Witness for C6 amended: the small animation with one colliding frame fails
with `InvalidHeadPosition`, and the large animation with `2^32` frames in one
line fails with `TooLargeGeneratedSheet`. -/
theorem C6_too_large_guard_amended_witness :
    smallCollAnim.generate_sheet = .error .InvalidHeadPosition ∧
    maxRowCount smallCollAnim < 2 ^ 32 ∧ smallCollAnim.images.length < 2 ^ 32 :=
  ⟨((C6_too_large_guard_amended smallCollAnim).2 (by decide) (by decide)).mpr
      ⟨[collFrame], List.mem_cons_self _ _, collFrame, List.mem_cons_self _ _, Or.inl rfl⟩,
    by decide, by decide⟩

/-- C7 counterexample: an animation with `2^32` colliding frames in one line
contains a frame whose head equals its hand_left offset, yet encoding fails
with `TooLargeGeneratedSheet`, not `InvalidHeadPosition`: the `u32` guard on
the frame counts runs before any per-frame validation. -/
theorem C7_counterexample_count_overflow :
    (∃ line ∈ bigAnim.images, ∃ f ∈ line, headCollision f) ∧
    bigAnim.generate_sheet = .error .TooLargeGeneratedSheet ∧
    bigAnim.generate_sheet ≠ .error .InvalidHeadPosition := by
  have hcoll : ∃ line ∈ bigAnim.images, ∃ f ∈ line, headCollision f :=
    ⟨List.replicate (2 ^ 32) collFrame, List.mem_cons_self _ _, collFrame,
      List.mem_replicate.mpr ⟨by norm_num, rfl⟩, Or.inl rfl⟩
  have hlen : bigAnim.images.map List.length = [2 ^ 32] := by
    rw [show bigAnim.images = [List.replicate (2 ^ 32) collFrame] from rfl,
      List.map_cons, List.map_nil, List.length_replicate]
  have hguard : 2 ^ 32 ≤ maxRowCount bigAnim := by
    rw [maxRowCount_eq, hlen, listMax_cons]
    have : listMax [] = 0 := rfl
    omega
  have herr := generate_sheet_guard bigAnim hguard
  refine ⟨hcoll, herr, ?_⟩
  rw [herr]
  intro h
  injection h with h2
  exact SpriteBotStorageError.noConfusion h2

/-- C7 amended: for every animation whose line count and frames-per-line
maximum fit `u32` and that contains a frame whose head offset equals its
hand_left or hand_right offset, encoding fails with `InvalidHeadPosition`, and
no canvases are returned (the result is the bare error).  Inside the discarded
local state the check precedes the head/hand marker stamps for the frame,
though the frame's image copy and shadow stamp have already happened. -/
theorem C7_head_collision_amended (a : Animation)
    (h1 : maxRowCount a < 2 ^ 32) (h2 : a.images.length < 2 ^ 32)
    (hcoll : ∃ line ∈ a.images, ∃ f ∈ line, headCollision f) :
    a.generate_sheet = .error .InvalidHeadPosition := by
  rw [generate_sheet_eq_stamp a h1 h2, stampLines_err _ _ _ _ hcoll, except_bind_error]

/-- Witness for C7 amended: the one-frame colliding animation. -/
theorem C7_head_collision_amended_witness :
    maxRowCount smallCollAnim < 2 ^ 32 ∧ smallCollAnim.images.length < 2 ^ 32 ∧
    headCollision collFrame ∧
    smallCollAnim.generate_sheet = .error .InvalidHeadPosition :=
  ⟨by decide, by decide, Or.inl rfl,
    C7_head_collision_amended smallCollAnim (by decide) (by decide)
      ⟨[collFrame], List.mem_cons_self _ _, collFrame, List.mem_cons_self _ _, Or.inl rfl⟩⟩

/-! ## Sprite assembler: cross-sheet consistency -/

theorem decodeColumns_cons_mismatch (name : String) (durs : List Nat)
    (a : List Image) (as : List (List Image)) (s : List Image) (ss : List (List Image))
    (o : List Image) (os : List (List Image)) (col : Nat)
    (h : a.length ≠ s.length ∨ s.length ≠ o.length) :
    decodeColumns name durs (a :: as) (s :: ss) (o :: os) col =
      .error (.SpriteSizeNotIdentical name) := by
  rw [decodeColumns, if_pos h]

theorem decodeColumns_cons_duration (name : String) (durs : List Nat)
    (a : List Image) (as : List (List Image)) (s : List Image) (ss : List (List Image))
    (o : List Image) (os : List (List Image)) (col : Nat)
    (hlen : a.length = s.length ∧ s.length = o.length)
    (hdur : a.length ≠ durs.length) :
    decodeColumns name durs (a :: as) (s :: ss) (o :: os) col =
      .error (.InconsistantDuration name a.length durs.length) := by
  rw [decodeColumns, if_neg (by push_neg; exact hlen), if_pos hdur]

/-- C8: in the decode path, with the three sheets present and sliceable, the
assembler fails with `SpriteSizeNotIdentical` when the three grids disagree in
line count, or (with at least one line) in per-line frame count, and fails with
`InconsistantDuration` when the grids agree but the per-line frame count
differs from the metadata's duration-list length — each check in that order. -/
theorem C8_cross_sheet_consistency (vfs : Store) (e : AnimXML) (imgA imgS imgO : Image)
    (hA : vfs.read (sheetPath e.name "Anim") = some imgA)
    (hS : vfs.read (sheetPath e.name "Shadow") = some imgS)
    (hO : vfs.read (sheetPath e.name "Offsets") = some imgO)
    (hfw : e.frame_width ≠ 0) (hfh : e.frame_height ≠ 0)
    (hmwA : imgA.width % e.frame_width = 0) (hmhA : imgA.height % e.frame_height = 0)
    (hmwS : imgS.width % e.frame_width = 0) (hmhS : imgS.height % e.frame_height = 0)
    (hmwO : imgO.width % e.frame_width = 0) (hmhO : imgO.height % e.frame_height = 0) :
    (¬(imgA.height / e.frame_height = imgS.height / e.frame_height ∧
        imgS.height / e.frame_height = imgO.height / e.frame_height) →
      decodeAnimation vfs e = .error (.SpriteSizeNotIdentical e.name)) ∧
    (imgA.height / e.frame_height = imgS.height / e.frame_height →
      imgS.height / e.frame_height = imgO.height / e.frame_height →
      0 < imgA.height / e.frame_height →
      ¬(imgA.width / e.frame_width = imgS.width / e.frame_width ∧
        imgS.width / e.frame_width = imgO.width / e.frame_width) →
      decodeAnimation vfs e = .error (.SpriteSizeNotIdentical e.name)) ∧
    (imgA.height / e.frame_height = imgS.height / e.frame_height →
      imgS.height / e.frame_height = imgO.height / e.frame_height →
      0 < imgA.height / e.frame_height →
      imgA.width / e.frame_width = imgS.width / e.frame_width →
      imgS.width / e.frame_width = imgO.width / e.frame_width →
      imgA.width / e.frame_width ≠ e.durations.length →
      decodeAnimation vfs e =
        .error (.InconsistantDuration e.name (imgA.width / e.frame_width)
          e.durations.length)) := by
  have hgA := get_image_ok vfs imgA e.name "Anim" e.frame_width e.frame_height hA hfw hfh hmwA hmhA
  have hgS := get_image_ok vfs imgS e.name "Shadow" e.frame_width e.frame_height hS hfw hfh hmwS hmhS
  have hgO := get_image_ok vfs imgO e.name "Offsets" e.frame_width e.frame_height hO hfw hfh hmwO hmhO
  refine ⟨?_, ?_, ?_⟩
  · intro hne
    rw [decodeAnimation, hgA, except_bind_ok, hgS, except_bind_ok, hgO, except_bind_ok,
      if_pos (by simpa using (not_and_or.mp hne))]
  · intro he1 he2 hpos hne
    rw [decodeAnimation, hgA, except_bind_ok, hgS, except_bind_ok, hgO, except_bind_ok,
      if_neg (by simp [he1, he2]), ← he2, ← he1]
    obtain ⟨n, hn⟩ : ∃ n, imgA.height / e.frame_height = n + 1 :=
      ⟨imgA.height / e.frame_height - 1, by omega⟩
    rw [hn, List.range_succ_eq_map, List.map_cons, List.map_cons, List.map_cons,
      decodeColumns_cons_mismatch]
    · rfl
    · simp only [List.length_map, List.length_range]
      exact not_and_or.mp hne
  · intro he1 he2 hpos hw1 hw2 hdur
    rw [decodeAnimation, hgA, except_bind_ok, hgS, except_bind_ok, hgO, except_bind_ok,
      if_neg (by simp [he1, he2]), ← he2, ← he1]
    obtain ⟨n, hn⟩ : ∃ n, imgA.height / e.frame_height = n + 1 :=
      ⟨imgA.height / e.frame_height - 1, by omega⟩
    rw [hn, List.range_succ_eq_map, List.map_cons, List.map_cons, List.map_cons,
      decodeColumns_cons_duration]
    · simp only [List.length_map, List.length_range]
      rfl
    · constructor <;> simp only [List.length_map, List.length_range]
      · exact hw1
      · exact hw2
    · simp only [List.length_map, List.length_range]
      exact hdur

/-- Witness for C8: three sheets whose grids have different line counts (1 for
Anim and Offsets, 2 for Shadow) fail assembly with `SpriteSizeNotIdentical`. -/
theorem C8_cross_sheet_consistency_witness :
    sheet8.height / mismatchEntry.frame_height = 1 ∧
    sheet8x16.height / mismatchEntry.frame_height = 2 ∧
    decodeAnimation mismatchStore mismatchEntry =
      .error (.SpriteSizeNotIdentical "m") :=
  ⟨rfl, rfl,
    (C8_cross_sheet_consistency mismatchStore mismatchEntry sheet8 sheet8x16 sheet8
      rfl rfl rfl (by decide) (by decide) (by decide) (by decide) (by decide) (by decide)
      (by decide) (by decide)).1 (by decide)⟩

/-! ## Decoded offsets lie inside the cell -/

theorem except_bind_ok_inv {E A B : Type} (m : Except E A) (f : A → Except E B) (b : B)
    (h : (m >>= f) = .ok b) : ∃ a, m = .ok a ∧ f a = .ok b := by
  cases m with
  | ok a => exact ⟨a, rfl, h⟩
  | error e => exact Except.noConfusion h

theorem find_pixel_loop_ok_mem (pixels : List (Nat × Nat × Pixel)) (filter : Pixel → Bool)
    (acc : Option (Nat × Nat)) (dup : SpriteBotStorageError) (r : Nat × Nat)
    (h : find_pixel_loop pixels filter acc dup = .ok (some r)) :
    acc = some r ∨ ∃ p, (r.1, r.2, p) ∈ pixels := by
  induction pixels generalizing acc with
  | nil =>
    rw [find_pixel_loop] at h
    injection h with h2
    exact .inl h2
  | cons t rest ih =>
    obtain ⟨x, y, p⟩ := t
    by_cases hp : filter p
    · cases acc with
      | some q => simp [find_pixel_loop, hp] at h
      | none =>
        have h2 : find_pixel_loop rest filter (some (x, y)) dup = .ok (some r) := by
          simpa [find_pixel_loop, hp] using h
        rcases ih (some (x, y)) h2 with h3 | ⟨p2, hp2⟩
        · right
          have : r = (x, y) := by injection h3 with h4; exact h4.symm
          subst this
          exact ⟨p, List.mem_cons_self _ _⟩
        · exact .inr ⟨p2, List.mem_cons_of_mem _ hp2⟩
    · have h2 : find_pixel_loop rest filter acc dup = .ok (some r) := by
        simpa [find_pixel_loop, hp] using h
      rcases ih acc h2 with h3 | ⟨p2, hp2⟩
      · exact .inl h3
      · exact .inr ⟨p2, List.mem_cons_of_mem _ hp2⟩

theorem find_pixel_in_image_ok_bounds (img : Image) (filter : Pixel → Bool)
    (anim : String) (c r0 : Nat) (kind color : String) (r : Nat × Nat)
    (h : find_pixel_in_image img filter anim c r0 kind color = .ok r) :
    r.1 < img.width ∧ r.2 < img.height := by
  rw [find_pixel_in_image] at h
  obtain ⟨res, hl, h⟩ := except_bind_ok_inv _ _ _ h
  cases res with
  | none => simp at h
  | some q =>
    rcases find_pixel_loop_ok_mem _ _ _ _ q hl with h2 | ⟨p, hp⟩
    · exact Option.noConfusion h2
    · rw [mem_enumeratePixels] at hp
      obtain ⟨hx, hy, -⟩ := hp
      have hqr : q = r := by
        simp only [] at h
        split at h
        · split at h
          · injection h with h3
          · exact Except.noConfusion h
        · exact Except.noConfusion h
      subst hqr
      exact ⟨hx, hy⟩

theorem black_offset_step_ok (r : Except SpriteBotStorageError (Nat × Nat))
    (bres : Option (Nat × Nat)) (h : black_offset_step r = .ok bres) :
    bres = none ∨ ∃ p, r = .ok p ∧ bres = some p := by
  cases r with
  | ok p =>
    right
    refine ⟨p, rfl, ?_⟩
    injection h with h2
    exact h2.symm
  | error e =>
    cases e
    case ColorNotFoundInPixelData =>
      left
      have h2 : (Except.ok (none : Option (Nat × Nat)) :
          Except SpriteBotStorageError (Option (Nat × Nat))) = .ok bres := h
      injection h2 with h3
      exact h3.symm
    all_goals exact Except.noConfusion h

theorem from_images_ok_inv (off sh : Image) (c r0 : Nat) (anim : String) (offs : FrameOffset)
    (h : FrameOffset.from_images off sh c r0 anim = .ok offs) :
    find_pixel_in_image off redPred anim c r0 "offsets" "red" = .ok offs.hand_left ∧
    find_pixel_in_image off greenPred anim c r0 "offsets" "green" = .ok offs.center ∧
    find_pixel_in_image off bluePred anim c r0 "offsets" "blue" = .ok offs.hand_right ∧
    find_pixel_in_image sh whitePred anim c r0 "shadows" "white" = .ok offs.shadow ∧
    (offs.head = offs.center ∨
      find_pixel_in_image off blackPred anim c r0 "offsets" "black" = .ok offs.head) := by
  rw [FrameOffset.from_images] at h
  obtain ⟨bres, hbs, h⟩ := except_bind_ok_inv _ _ _ h
  obtain ⟨rr, hr, h⟩ := except_bind_ok_inv _ _ _ h
  obtain ⟨gg, hg, h⟩ := except_bind_ok_inv _ _ _ h
  obtain ⟨bb, hbl, h⟩ := except_bind_ok_inv _ _ _ h
  obtain ⟨ww, hw, h⟩ := except_bind_ok_inv _ _ _ h
  injection h with h2
  subst h2
  refine ⟨hr, hg, hbl, hw, ?_⟩
  rcases black_offset_step_ok _ _ hbs with rfl | ⟨p, hp, rfl⟩
  · exact .inl rfl
  · exact .inr hp

theorem from_images_bounds (off sh : Image) (c r0 : Nat) (anim : String) (offs : FrameOffset)
    (h : FrameOffset.from_images off sh c r0 anim = .ok offs) :
    offs.head.1 < off.width ∧ offs.head.2 < off.height ∧
    offs.hand_left.1 < off.width ∧ offs.hand_left.2 < off.height ∧
    offs.hand_right.1 < off.width ∧ offs.hand_right.2 < off.height ∧
    offs.center.1 < off.width ∧ offs.center.2 < off.height ∧
    offs.shadow.1 < sh.width ∧ offs.shadow.2 < sh.height := by
  obtain ⟨hr, hg, hbl, hw, hhead⟩ := from_images_ok_inv off sh c r0 anim offs h
  obtain ⟨hr1, hr2⟩ := find_pixel_in_image_ok_bounds _ _ _ _ _ _ _ _ hr
  obtain ⟨hg1, hg2⟩ := find_pixel_in_image_ok_bounds _ _ _ _ _ _ _ _ hg
  obtain ⟨hb1, hb2⟩ := find_pixel_in_image_ok_bounds _ _ _ _ _ _ _ _ hbl
  obtain ⟨hw1, hw2⟩ := find_pixel_in_image_ok_bounds _ _ _ _ _ _ _ _ hw
  refine ⟨?_, ?_, hr1, hr2, hb1, hb2, hg1, hg2, hw1, hw2⟩
  · rcases hhead with h2 | h2
    · rw [h2]; exact hg1
    · exact (find_pixel_in_image_ok_bounds _ _ _ _ _ _ _ _ h2).1
  · rcases hhead with h2 | h2
    · rw [h2]; exact hg2
    · exact (find_pixel_in_image_ok_bounds _ _ _ _ _ _ _ _ h2).2

theorem get_image_ok_dims (vfs : Store) (name kind : String) (fh fw : Nat)
    (grid : List (List Image)) (h : get_image vfs name kind fh fw = .ok grid) :
    ∀ col ∈ grid, ∀ im ∈ col, im.width = fw ∧ im.height = fh := by
  simp only [get_image] at h
  cases hread : vfs.read (sheetPath name kind) with
  | none =>
    rw [hread] at h
    exact Except.noConfusion h
  | some img =>
    rw [hread] at h
    obtain ⟨nW, hnW, h⟩ := except_bind_ok_inv _ _ _ h
    obtain ⟨nH, hnH, h⟩ := except_bind_ok_inv _ _ _ h
    injection h with h2
    subst h2
    intro col hcol im him
    simp only [List.mem_map, List.mem_range] at hcol
    obtain ⟨i, -, rfl⟩ := hcol
    simp only [List.mem_map, List.mem_range] at him
    obtain ⟨j, -, rfl⟩ := him
    exact ⟨rfl, rfl⟩

theorem decodeFrames_bounds (name : String) (col : Nat) (fw fh : Nat)
    (anims shadows offsets : List Image) (durs : List Nat) (row : Nat) (frames : List Frame)
    (hA : ∀ im ∈ anims, im.width = fw ∧ im.height = fh)
    (hS : ∀ im ∈ shadows, im.width = fw ∧ im.height = fh)
    (hO : ∀ im ∈ offsets, im.width = fw ∧ im.height = fh)
    (h : decodeFrames name col anims shadows offsets durs row = .ok frames) :
    ∀ fr ∈ frames, offsetsInside fr := by
  induction anims generalizing shadows offsets durs row frames with
  | nil =>
    injection h with h2
    subst h2
    intro fr hfr
    exact absurd hfr (List.not_mem_nil fr)
  | cons a as ih =>
    cases shadows with
    | nil =>
      injection h with h2
      subst h2
      intro fr hfr
      exact absurd hfr (List.not_mem_nil fr)
    | cons s ss =>
      cases offsets with
      | nil =>
        injection h with h2
        subst h2
        intro fr hfr
        exact absurd hfr (List.not_mem_nil fr)
      | cons o os =>
        cases durs with
        | nil =>
          injection h with h2
          subst h2
          intro fr hfr
          exact absurd hfr (List.not_mem_nil fr)
        | cons d ds =>
          rw [decodeFrames] at h
          obtain ⟨offs, hoffs, h⟩ := except_bind_ok_inv _ _ _ h
          obtain ⟨rest, hrest, h⟩ := except_bind_ok_inv _ _ _ h
          have hframes : frames = { duration := d, image := a, offsets := offs } :: rest := by
            split at h
            · injection h with h2
              exact h2.symm
            · exact Except.noConfusion h
          subst hframes
          intro fr hfr
          rcases List.mem_cons.mp hfr with rfl | hfr2
          · have hb := from_images_bounds o s col row name offs hoffs
            obtain ⟨how, hoh⟩ := hO o (List.mem_cons_self _ _)
            obtain ⟨hsw, hsh⟩ := hS s (List.mem_cons_self _ _)
            obtain ⟨haw, hah⟩ := hA a (List.mem_cons_self _ _)
            rw [how, hoh, hsw, hsh] at hb
            refine ⟨?_, ?_, ?_, ?_, ?_, ?_, ?_, ?_, ?_, ?_⟩ <;>
              simp only [offsetsInside, haw, hah] <;> omega
          · exact ih ss os ds (row + 1) rest
              (fun im hm => hA im (List.mem_cons_of_mem _ hm))
              (fun im hm => hS im (List.mem_cons_of_mem _ hm))
              (fun im hm => hO im (List.mem_cons_of_mem _ hm))
              hrest fr hfr2

theorem decodeColumns_bounds (name : String) (durs : List Nat) (fw fh : Nat)
    (anims shadows offsets : List (List Image)) (col : Nat) (columns : List (List Frame))
    (hA : ∀ c ∈ anims, ∀ im ∈ c, im.width = fw ∧ im.height = fh)
    (hS : ∀ c ∈ shadows, ∀ im ∈ c, im.width = fw ∧ im.height = fh)
    (hO : ∀ c ∈ offsets, ∀ im ∈ c, im.width = fw ∧ im.height = fh)
    (h : decodeColumns name durs anims shadows offsets col = .ok columns) :
    ∀ line ∈ columns, ∀ fr ∈ line, offsetsInside fr := by
  induction anims generalizing shadows offsets col columns with
  | nil =>
    injection h with h2
    subst h2
    intro line hl
    exact absurd hl (List.not_mem_nil line)
  | cons a as ih =>
    cases shadows with
    | nil =>
      injection h with h2
      subst h2
      intro line hl
      exact absurd hl (List.not_mem_nil line)
    | cons s ss =>
      cases offsets with
      | nil =>
        injection h with h2
        subst h2
        intro line hl
        exact absurd hl (List.not_mem_nil line)
      | cons o os =>
        rw [decodeColumns] at h
        split at h
        · exact Except.noConfusion h
        · split at h
          · exact Except.noConfusion h
          · obtain ⟨frames, hframes, h⟩ := except_bind_ok_inv _ _ _ h
            obtain ⟨rest, hrest, h⟩ := except_bind_ok_inv _ _ _ h
            injection h with h2
            subst h2
            intro line hl
            rcases List.mem_cons.mp hl with rfl | hl2
            · exact decodeFrames_bounds name col fw fh a s o durs 0 line
                (hA a (List.mem_cons_self _ _)) (hS s (List.mem_cons_self _ _))
                (hO o (List.mem_cons_self _ _)) hframes
            · exact ih ss os (col + 1) rest
                (fun c hc => hA c (List.mem_cons_of_mem _ hc))
                (fun c hc => hS c (List.mem_cons_of_mem _ hc))
                (fun c hc => hO c (List.mem_cons_of_mem _ hc))
                hrest line hl2

theorem decodeAnimation_bounds (vfs : Store) (e : AnimXML) (a : Animation)
    (h : decodeAnimation vfs e = .ok a) :
    ∀ line ∈ a.images, ∀ fr ∈ line, offsetsInside fr := by
  rw [decodeAnimation] at h
  obtain ⟨gA, hgA, h⟩ := except_bind_ok_inv _ _ _ h
  obtain ⟨gS, hgS, h⟩ := except_bind_ok_inv _ _ _ h
  obtain ⟨gO, hgO, h⟩ := except_bind_ok_inv _ _ _ h
  split at h
  · exact Except.noConfusion h
  · obtain ⟨images, himages, h⟩ := except_bind_ok_inv _ _ _ h
    injection h with h2
    subst h2
    exact decodeColumns_bounds e.name e.durations e.frame_width e.frame_height gA gS gO 0
      images (get_image_ok_dims vfs e.name "Anim" e.frame_height e.frame_width gA hgA)
      (get_image_ok_dims vfs e.name "Shadow" e.frame_height e.frame_width gS hgS)
      (get_image_ok_dims vfs e.name "Offsets" e.frame_height e.frame_width gO hgO)
      himages

theorem decodeAnims_bounds (vfs : Store) (entries : List AnimXML) (l : List Animation)
    (h : decodeAnims vfs entries = .ok l) :
    ∀ a ∈ l, ∀ line ∈ a.images, ∀ fr ∈ line, offsetsInside fr := by
  induction entries generalizing l with
  | nil =>
    injection h with h2
    subst h2
    intro a ha
    exact absurd ha (List.not_mem_nil a)
  | cons e rest ih =>
    rw [decodeAnims] at h
    obtain ⟨a1, ha1, h⟩ := except_bind_ok_inv _ _ _ h
    obtain ⟨l1, hl1, h⟩ := except_bind_ok_inv _ _ _ h
    injection h with h2
    subst h2
    intro a ha
    rcases List.mem_cons.mp ha with rfl | ha2
    · exact decodeAnimation_bounds vfs e a ha1
    · exact ih l1 hl1 a ha2

/-- C10: every frame of a successfully decoded sprite has all five offset
coordinates strictly inside the frame's own cell — each coordinate is smaller
than the frame image's width/height (the cell extent), because markers are
located by scanning only the cell's cropped sub-image. -/
theorem C10_offsets_in_cell (xml : AnimDataXML) (vfs : Store) (sp : Sprite)
    (h : Sprite.new xml vfs = .ok sp) :
    ∀ a ∈ sp.animations, ∀ line ∈ a.images, ∀ fr ∈ line, offsetsInside fr := by
  rw [Sprite.new] at h
  obtain ⟨l, hl, h⟩ := except_bind_ok_inv _ _ _ h
  injection h with h2
  subst h2
  exact decodeAnims_bounds vfs xml.anims l hl

/-- Witness for C10: a concrete decodable store; the decoded sprite's offsets
are inside their cells. -/
theorem C10_offsets_in_cell_witness :
    ∃ sp, Sprite.new wXml wStore = .ok sp ∧
      ∀ a ∈ sp.animations, ∀ line ∈ a.images, ∀ fr ∈ line, offsetsInside fr := by
  obtain ⟨sp, hsp⟩ : ∃ sp, Sprite.new wXml wStore = .ok sp := ⟨_, rfl⟩
  exact ⟨sp, hsp, C10_offsets_in_cell wXml wStore sp hsp⟩

/-! ## Round-trip -/

/-- C1 counterexample: a sprite whose single animation has two lines of unequal
length (1 frame, then 0 frames), with every frame's head distinct from both
hands.  Encoding succeeds — the short line leaves a blank trailing cell — but
decoding the written files fails with `ColorNotFound` on the blank cell, so the
round-trip does not yield a model at all. -/
theorem C1_counterexample_ragged_lines :
    (∀ a ∈ ragSprite.animations, ∀ line ∈ a.images, ∀ f ∈ line,
      f.offsets.head ≠ f.offsets.hand_left ∧ f.offsets.head ≠ f.offsets.hand_right) ∧
    (∃ xml store, ragSprite.write_to_folder [] = .ok (xml, store)) ∧
    (ragSprite.write_to_folder [] >>= fun r => Sprite.new r.1 r.2) =
      .error (.ColorNotFoundInPixelData "r" 1 0 "offsets" "red") := by
  refine ⟨?_, ⟨_, _, rfl⟩, rfl⟩
  intro a ha line hline f hf
  rw [show ragSprite.animations = [ragAnim] from rfl, List.mem_singleton] at ha
  subst ha
  rw [show ragAnim.images = [[okFrame], []] from rfl] at hline
  rcases List.mem_cons.mp hline with rfl | hline2
  · rw [List.mem_singleton] at hf
    subst hf
    exact ⟨by decide, by decide⟩
  · rw [List.mem_singleton] at hline2
    subst hline2
    exact absurd hf (List.not_mem_nil f)

theorem le_listMax_of_mem {x : Nat} {l : List Nat} (h : x ∈ l) : x ≤ listMax l := by
  induction l with
  | nil => exact absurd h (List.not_mem_nil x)
  | cons a rest ih =>
    rw [listMax_cons]
    rcases List.mem_cons.mp h with rfl | h2
    · omega
    · have := ih h2
      omega

theorem listMax_le {b : Nat} {l : List Nat} (h : ∀ x ∈ l, x ≤ b) : listMax l ≤ b := by
  induction l with
  | nil => exact Nat.zero_le b
  | cons a rest ih =>
    rw [listMax_cons]
    have h1 := h a (List.mem_cons_self _ _)
    have h2 := ih (fun x hx => h x (List.mem_cons_of_mem _ hx))
    omega

theorem mem_allFrames (a : Animation) (line : List Frame) (f : Frame)
    (hl : line ∈ a.images) (hf : f ∈ line) : f ∈ a.allFrames := by
  rw [Animation.allFrames, List.mem_flatMap]
  exact ⟨line, hl, by simpa using hf⟩

set_option maxHeartbeats 1600000 in
theorem cell_bounds_of_mem (a : Animation) (f : Frame) (hf : f ∈ a.allFrames) :
    f.image.width ≤ (maxCellSize a).1 ∧ f.image.height ≤ (maxCellSize a).2 ∧
    f.offsets.head.1 + 1 ≤ (maxCellSize a).1 ∧ f.offsets.head.2 + 1 ≤ (maxCellSize a).2 ∧
    f.offsets.hand_left.1 + 1 ≤ (maxCellSize a).1 ∧
    f.offsets.hand_left.2 + 1 ≤ (maxCellSize a).2 ∧
    f.offsets.hand_right.1 + 1 ≤ (maxCellSize a).1 ∧
    f.offsets.hand_right.2 + 1 ≤ (maxCellSize a).2 ∧
    f.offsets.center.1 + 1 ≤ (maxCellSize a).1 ∧
    f.offsets.center.2 + 1 ≤ (maxCellSize a).2 ∧
    f.offsets.shadow.1 + 1 ≤ (maxCellSize a).1 ∧
    f.offsets.shadow.2 + 1 ≤ (maxCellSize a).2 := by
  have hw : frameWidthNeed f ≤ listMax (a.allFrames.map frameWidthNeed) :=
    le_listMax_of_mem (List.mem_map_of_mem frameWidthNeed hf)
  have hh : frameHeightNeed f ≤ listMax (a.allFrames.map frameHeightNeed) :=
    le_listMax_of_mem (List.mem_map_of_mem frameHeightNeed hf)
  have hw' : max f.image.width (max (f.offsets.head.1 + 1) (max (f.offsets.hand_left.1 + 1)
      (max (f.offsets.hand_right.1 + 1) (max (f.offsets.center.1 + 1)
        (f.offsets.shadow.1 + 1))))) ≤ listMax (a.allFrames.map frameWidthNeed) := hw
  have hh' : max f.image.height (max (f.offsets.head.2 + 1) (max (f.offsets.hand_left.2 + 1)
      (max (f.offsets.hand_right.2 + 1) (max (f.offsets.center.2 + 1)
        (f.offsets.shadow.2 + 1))))) ≤ listMax (a.allFrames.map frameHeightNeed) := hh
  clear hw hh
  rw [maxCellSize_eq]
  dsimp only
  refine ⟨?_, ?_, ?_, ?_, ?_, ?_, ?_, ?_, ?_, ?_, ?_, ?_⟩ <;> omega

theorem cell_floor (a : Animation) :
    8 ≤ (maxCellSize a).1 ∧ 8 ≤ (maxCellSize a).2 := by
  rw [maxCellSize_eq]
  constructor <;> simp

theorem length_le_maxRowCount (a : Animation) (line : List Frame) (hl : line ∈ a.images) :
    line.length ≤ maxRowCount a := by
  rw [maxRowCount_eq]
  have := le_listMax_of_mem (List.mem_map_of_mem List.length hl)
  omega

theorem offsetsCellPix_red (o : FrameOffset) (x y : Nat) :
    redPred (offsetsCellPix o x y) = true ↔ x = o.hand_left.1 ∧ y = o.hand_left.2 := by
  unfold offsetsCellPix
  split_ifs with h1 h2 h3 h4 <;> simp_all [redPred, Pixel.zero]

theorem offsetsCellPix_green (o : FrameOffset) (x y : Nat) :
    greenPred (offsetsCellPix o x y) = true ↔ x = o.center.1 ∧ y = o.center.2 := by
  unfold offsetsCellPix
  split_ifs with h1 h2 h3 h4 <;> simp_all [greenPred, Pixel.zero]

theorem offsetsCellPix_blue (o : FrameOffset) (x y : Nat) :
    bluePred (offsetsCellPix o x y) = true ↔ x = o.hand_right.1 ∧ y = o.hand_right.2 := by
  unfold offsetsCellPix
  split_ifs with h1 h2 h3 h4 <;> simp_all [bluePred, Pixel.zero]

theorem offsetsCellPix_black (o : FrameOffset) (x y : Nat)
    (hne1 : o.head ≠ o.hand_left) (hne2 : o.head ≠ o.hand_right) :
    blackPred (offsetsCellPix o x y) = true ↔
      (x = o.head.1 ∧ y = o.head.2) ∧ ¬(x = o.center.1 ∧ y = o.center.2) := by
  have hne1' : o.head.1 ≠ o.hand_left.1 ∨ o.head.2 ≠ o.hand_left.2 := by
    by_contra hc
    push_neg at hc
    exact hne1 (Prod.ext hc.1 hc.2)
  have hne2' : o.head.1 ≠ o.hand_right.1 ∨ o.head.2 ≠ o.hand_right.2 := by
    by_contra hc
    push_neg at hc
    exact hne2 (Prod.ext hc.1 hc.2)
  unfold offsetsCellPix
  split_ifs with h1 h2 h3 h4 <;> simp_all [blackPred, Pixel.zero] <;> omega

theorem shadowCellPix_white (o : FrameOffset) (x y : Nat) :
    whitePred (shadowCellPix o x y) = true ↔ x = o.shadow.1 ∧ y = o.shadow.2 := by
  unfold shadowCellPix
  split_ifs with h1 <;> simp_all [whitePred, Pixel.zero]

/-! ## Round-trip: paths, stamped-sheet contents and decode characterisation -/

theorem sheetPath_data (n k : String) :
    (sheetPath n k).data = '/' :: (n.data ++ ('-' :: (k.data ++ ['.', 'p', 'n', 'g']))) := by
  simp [sheetPath, String.data_append]

theorem sheetPath_inj_name (n m k : String) (h : sheetPath n k = sheetPath m k) : n = m := by
  have hd := congrArg String.data h
  rw [sheetPath_data, sheetPath_data] at hd
  have h2 := (List.cons.injEq _ _ _ _).mp hd
  have h3 := (List.append_inj' h2.2 rfl).1
  cases n with
  | mk d1 =>
    cases m with
    | mk d2 =>
      simp only [String.data] at h3
      rw [h3]

theorem kindTag_ne (n m : String) (k1 k2 : String) (c1 c2 : Char)
    (h1 : ((sheetPath n k1).data.reverse.drop 4).head? = some c1)
    (h2 : ((sheetPath m k2).data.reverse.drop 4).head? = some c2)
    (hne : c1 ≠ c2) : sheetPath n k1 ≠ sheetPath m k2 := by
  intro h
  rw [h, h2] at h1
  exact hne (Option.some.inj h1).symm

theorem revdrop (n : String) (k : String) (c : Char) (cs : List Char)
    (hk : k.data.reverse = c :: cs) :
    ((sheetPath n k).data.reverse.drop 4).head? = some c := by
  rw [sheetPath_data]
  simp [List.reverse_append, hk]

theorem sheetPath_ne_kind (n m : String) (k1 k2 : String)
    (hk1 : k1 = "Anim" ∨ k1 = "Offsets" ∨ k1 = "Shadow")
    (hk2 : k2 = "Anim" ∨ k2 = "Offsets" ∨ k2 = "Shadow")
    (hne : k1 ≠ k2) : sheetPath n k1 ≠ sheetPath m k2 := by
  rcases hk1 with rfl | rfl | rfl <;> rcases hk2 with rfl | rfl | rfl <;>
    first
    | exact absurd rfl hne
    | exact kindTag_ne n m _ _ 'm' 's' (revdrop n _ _ _ rfl) (revdrop m _ _ _ rfl) (by decide)
    | exact kindTag_ne n m _ _ 'm' 'w' (revdrop n _ _ _ rfl) (revdrop m _ _ _ rfl) (by decide)
    | exact kindTag_ne n m _ _ 's' 'm' (revdrop n _ _ _ rfl) (revdrop m _ _ _ rfl) (by decide)
    | exact kindTag_ne n m _ _ 's' 'w' (revdrop n _ _ _ rfl) (revdrop m _ _ _ rfl) (by decide)
    | exact kindTag_ne n m _ _ 'w' 'm' (revdrop n _ _ _ rfl) (revdrop m _ _ _ rfl) (by decide)
    | exact kindTag_ne n m _ _ 'w' 's' (revdrop n _ _ _ rfl) (revdrop m _ _ _ rfl) (by decide)

theorem sheetPath_ne_name (n m : String) (k1 k2 : String) (hnm : n ≠ m)
    (hk1 : k1 = "Anim" ∨ k1 = "Offsets" ∨ k1 = "Shadow")
    (hk2 : k2 = "Anim" ∨ k2 = "Offsets" ∨ k2 = "Shadow") :
    sheetPath n k1 ≠ sheetPath m k2 := by
  by_cases hk : k1 = k2
  · subst hk
    intro h
    exact hnm (sheetPath_inj_name n m k1 h)
  · exact sheetPath_ne_kind n m k1 k2 hk1 hk2 hk

theorem frameFits_of_mem (a : Animation) (f : Frame) (hf : f ∈ a.allFrames) :
    frameFits (maxCellSize a) f := by
  have h := cell_bounds_of_mem a f hf
  unfold frameFits
  refine ⟨?_, ?_, ?_, ?_, ?_, ?_, ?_, ?_, ?_, ?_, ?_, ?_⟩ <;> omega

theorem linePix_cons (cell : Nat × Nat) (f : Frame) (rest : List Frame) (x y : Nat)
    (hcw : 0 < cell.1) (hx : cell.1 ≤ x) :
    linePix cell (f :: rest) x y = linePix cell rest (x - cell.1) y := by
  rw [linePix, linePix, Nat.div_eq_sub_div hcw hx, Nat.mod_eq_sub_mod hx,
    List.getElem?_cons_succ]

theorem gridPix_cons (cell : Nat × Nat) (fs : List Frame) (rest : List (List Frame))
    (x y : Nat) (hch : 0 < cell.2) (hy : cell.2 ≤ y) :
    gridPix cell (fs :: rest) x y = gridPix cell rest x (y - cell.2) := by
  rw [gridPix, gridPix, Nat.div_eq_sub_div hch hy, Nat.mod_eq_sub_mod hy,
    List.getElem?_cons_succ]

theorem gridPix_at (cell : Nat × Nat) (lines : List (List Frame)) (i j u v : Nat)
    (fs : List Frame) (f : Frame) (hch : 0 < cell.2)
    (hu : u < cell.1) (hv : v < cell.2)
    (hline : lines[i]? = some fs) (hf : fs[j]? = some f) :
    gridPix cell lines (j * cell.1 + u) (i * cell.2 + v) = cellsPix f u v := by
  have hdy : (i * cell.2 + v) / cell.2 = i := by
    rw [Nat.mul_comm i cell.2, Nat.mul_add_div hch, Nat.div_eq_of_lt hv, Nat.add_zero]
  have hmy : (i * cell.2 + v) % cell.2 = v := by
    rw [Nat.mul_comm i cell.2, Nat.mul_add_mod, Nat.mod_eq_of_lt hv]
  have hdx : (j * cell.1 + u) / cell.1 = j := by
    rw [Nat.mul_comm j cell.1, Nat.mul_add_div (by omega : 0 < cell.1),
      Nat.div_eq_of_lt hu, Nat.add_zero]
  have hmx : (j * cell.1 + u) % cell.1 = u := by
    rw [Nat.mul_comm j cell.1, Nat.mul_add_mod, Nat.mod_eq_of_lt hu]
  simp only [gridPix, hdy, hmy, hline, linePix, hdx, hmx, hf]

theorem stampFrame_pix (c : Image × Image × Image) (cell : Nat × Nat) (sx sy : Nat)
    (f : Frame) (hfit : frameFits cell f) (hcoll : ¬headCollision f) :
    ∃ c', stampFrame c sx sy f = .ok c' ∧
      (∀ x y, ¬(sx ≤ x ∧ x < sx + cell.1 ∧ sy ≤ y ∧ y < sy + cell.2) →
        c'.1.pix x y = c.1.pix x y ∧ c'.2.1.pix x y = c.2.1.pix x y ∧
        c'.2.2.pix x y = c.2.2.pix x y) ∧
      (∀ u v, u < cell.1 → v < cell.2 →
        (c.1.pix (sx + u) (sy + v) = Pixel.zero →
          c'.1.pix (sx + u) (sy + v) = animCellPix f.image u v) ∧
        (c.2.1.pix (sx + u) (sy + v) = Pixel.zero →
          c'.2.1.pix (sx + u) (sy + v) = offsetsCellPix f.offsets u v) ∧
        (c.2.2.pix (sx + u) (sy + v) = Pixel.zero →
          c'.2.2.pix (sx + u) (sy + v) = shadowCellPix f.offsets u v)) := by
  obtain ⟨hw, hh, hh1, hh2, hl1, hl2, hr1, hr2, hc1, hc2, hs1, hs2⟩ := hfit
  rw [stampFrame, if_neg (show ¬(f.offsets.head = f.offsets.hand_left ∨
    f.offsets.head = f.offsets.hand_right) from hcoll)]
  refine ⟨_, rfl, ?_, ?_⟩
  · intro x y hout
    refine ⟨?_, ?_, ?_⟩
    · show (c.1.copyFrom f.image sx sy).pix x y = c.1.pix x y
      rw [Image.copyFrom]
      exact if_neg (by omega)
    · show Image.pix _ x y = c.2.1.pix x y
      simp only [Image.mergePixel, Image.putPixel]
      have e1 : ¬(x = sx + f.offsets.hand_left.1 ∧ y = sy + f.offsets.hand_left.2) := by omega
      have e2 : ¬(x = sx + f.offsets.hand_right.1 ∧ y = sy + f.offsets.hand_right.2) := by
        omega
      have e3 : ¬(x = sx + f.offsets.center.1 ∧ y = sy + f.offsets.center.2) := by omega
      have e4 : ¬(x = sx + f.offsets.head.1 ∧ y = sy + f.offsets.head.2) := by omega
      rw [if_neg e1, if_neg e2, if_neg e3, if_neg e4]
    · show Image.pix _ x y = c.2.2.pix x y
      simp only [Image.putPixel]
      have e1 : ¬(x = sx + f.offsets.shadow.1 ∧ y = sy + f.offsets.shadow.2) := by omega
      rw [if_neg e1]
  · intro u v hu hv
    refine ⟨?_, ?_, ?_⟩
    · intro hz
      show (c.1.copyFrom f.image sx sy).pix (sx + u) (sy + v) = animCellPix f.image u v
      simp only [Image.copyFrom, animCellPix]
      by_cases hin : u < f.image.width ∧ v < f.image.height
      · rw [if_pos (by omega), if_pos hin, Nat.add_sub_cancel_left, Nat.add_sub_cancel_left]
      · rw [if_neg (by omega), if_neg hin, hz]
    · intro hz
      show Image.pix _ (sx + u) (sy + v) = offsetsCellPix f.offsets u v
      simp only [Image.mergePixel, Image.putPixel, offsetsCellPix]
      have e1 : (sx + u = sx + f.offsets.hand_left.1 ∧ sy + v = sy + f.offsets.hand_left.2) ↔
          (u = f.offsets.hand_left.1 ∧ v = f.offsets.hand_left.2) := by omega
      have e2 : (sx + u = sx + f.offsets.hand_right.1 ∧
          sy + v = sy + f.offsets.hand_right.2) ↔
          (u = f.offsets.hand_right.1 ∧ v = f.offsets.hand_right.2) := by omega
      have e3 : (sx + u = sx + f.offsets.center.1 ∧ sy + v = sy + f.offsets.center.2) ↔
          (u = f.offsets.center.1 ∧ v = f.offsets.center.2) := by omega
      have e4 : (sx + u = sx + f.offsets.head.1 ∧ sy + v = sy + f.offsets.head.2) ↔
          (u = f.offsets.head.1 ∧ v = f.offsets.head.2) := by omega
      simp only [e1, e2, e3, e4, hz]
    · intro hz
      show Image.pix _ (sx + u) (sy + v) = shadowCellPix f.offsets u v
      simp only [Image.putPixel, shadowCellPix]
      have e1 : (sx + u = sx + f.offsets.shadow.1 ∧ sy + v = sy + f.offsets.shadow.2) ↔
          (u = f.offsets.shadow.1 ∧ v = f.offsets.shadow.2) := by omega
      simp only [e1, hz]

theorem stampLine_pix (cell : Nat × Nat) (fs : List Frame)
    (c : Image × Image × Image) (sx sy : Nat) (hcw : 0 < cell.1)
    (hfit : ∀ f ∈ fs, frameFits cell f) (hcoll : ∀ f ∈ fs, ¬headCollision f)
    (hz : ∀ x y, sx ≤ x → sy ≤ y → y < sy + cell.2 →
      c.1.pix x y = Pixel.zero ∧ c.2.1.pix x y = Pixel.zero ∧ c.2.2.pix x y = Pixel.zero) :
    ∃ c', stampLine cell c sx sy fs = .ok c' ∧
      (∀ x y, (x < sx ∨ y < sy ∨ sy + cell.2 ≤ y) →
        c'.1.pix x y = c.1.pix x y ∧ c'.2.1.pix x y = c.2.1.pix x y ∧
        c'.2.2.pix x y = c.2.2.pix x y) ∧
      (∀ x y, sx ≤ x → sy ≤ y → y < sy + cell.2 →
        (c'.1.pix x y, c'.2.1.pix x y, c'.2.2.pix x y) =
          linePix cell fs (x - sx) (y - sy)) := by
  induction fs generalizing c sx with
  | nil =>
    refine ⟨c, rfl, fun x y _ => ⟨rfl, rfl, rfl⟩, ?_⟩
    intro x y hx hy hy2
    obtain ⟨z1, z2, z3⟩ := hz x y hx hy hy2
    simp [linePix, z1, z2, z3]
  | cons f rest ih =>
    obtain ⟨c1, hok, hout, hin⟩ := stampFrame_pix c cell sx sy f
      (hfit f (List.mem_cons_self f rest)) (hcoll f (List.mem_cons_self f rest))
    have hz1 : ∀ x y, sx + cell.1 ≤ x → sy ≤ y → y < sy + cell.2 →
        c1.1.pix x y = Pixel.zero ∧ c1.2.1.pix x y = Pixel.zero ∧
        c1.2.2.pix x y = Pixel.zero := by
      intro x y hx hy hy2
      obtain ⟨u1, u2, u3⟩ := hout x y (by omega)
      obtain ⟨z1, z2, z3⟩ := hz x y (by omega) hy hy2
      exact ⟨u1.trans z1, u2.trans z2, u3.trans z3⟩
    obtain ⟨c', hok2, hout2, hin2⟩ := ih c1 (sx + cell.1)
      (fun g hg => hfit g (List.mem_cons_of_mem f hg))
      (fun g hg => hcoll g (List.mem_cons_of_mem f hg)) hz1
    refine ⟨c', ?_, ?_, ?_⟩
    · rw [stampLine, hok, except_bind_ok, hok2]
    · intro x y hcond
      obtain ⟨u1, u2, u3⟩ := hout2 x y (by omega)
      obtain ⟨w1, w2, w3⟩ := hout x y (by omega)
      exact ⟨u1.trans w1, u2.trans w2, u3.trans w3⟩
    · intro x y hx hy hy2
      by_cases hxc : x < sx + cell.1
      · obtain ⟨u1, u2, u3⟩ := hout2 x y (by omega)
        obtain ⟨z1, z2, z3⟩ := hz x y hx hy hy2
        have hi := hin (x - sx) (y - sy) (by omega) (by omega)
        rw [Nat.add_sub_cancel' hx, Nat.add_sub_cancel' hy] at hi
        obtain ⟨w1, w2, w3⟩ := hi
        rw [u1, u2, u3, w1 z1, w2 z2, w3 z3]
        rw [linePix, Nat.div_eq_of_lt (by omega), Nat.mod_eq_of_lt (by omega),
          List.getElem?_cons_zero]
        rfl
      · have hi := hin2 x y (by omega) hy hy2
        rw [linePix_cons cell f rest (x - sx) (y - sy) hcw (by omega),
          show x - sx - cell.1 = x - (sx + cell.1) from by omega]
        exact hi

theorem stampLines_pix (cell : Nat × Nat) (lines : List (List Frame))
    (c : Image × Image × Image) (sy : Nat) (hcw : 0 < cell.1) (hch : 0 < cell.2)
    (hfit : ∀ fs ∈ lines, ∀ f ∈ fs, frameFits cell f)
    (hcoll : ∀ fs ∈ lines, ∀ f ∈ fs, ¬headCollision f)
    (hz : ∀ x y, sy ≤ y →
      c.1.pix x y = Pixel.zero ∧ c.2.1.pix x y = Pixel.zero ∧ c.2.2.pix x y = Pixel.zero) :
    ∃ c', stampLines cell c sy lines = .ok c' ∧
      (∀ x y, y < sy →
        c'.1.pix x y = c.1.pix x y ∧ c'.2.1.pix x y = c.2.1.pix x y ∧
        c'.2.2.pix x y = c.2.2.pix x y) ∧
      (∀ x y, sy ≤ y →
        (c'.1.pix x y, c'.2.1.pix x y, c'.2.2.pix x y) =
          gridPix cell lines x (y - sy)) := by
  induction lines generalizing c sy with
  | nil =>
    refine ⟨c, rfl, fun x y _ => ⟨rfl, rfl, rfl⟩, ?_⟩
    intro x y hy
    obtain ⟨z1, z2, z3⟩ := hz x y hy
    simp [gridPix, z1, z2, z3]
  | cons fs rest ih =>
    obtain ⟨c1, hok, hout, hin⟩ := stampLine_pix cell fs c 0 sy hcw
      (hfit fs (List.mem_cons_self fs rest)) (hcoll fs (List.mem_cons_self fs rest))
      (fun x y _ hy hy2 => hz x y hy)
    have hz1 : ∀ x y, sy + cell.2 ≤ y →
        c1.1.pix x y = Pixel.zero ∧ c1.2.1.pix x y = Pixel.zero ∧
        c1.2.2.pix x y = Pixel.zero := by
      intro x y hy
      obtain ⟨u1, u2, u3⟩ := hout x y (by omega)
      obtain ⟨z1, z2, z3⟩ := hz x y (by omega)
      exact ⟨u1.trans z1, u2.trans z2, u3.trans z3⟩
    obtain ⟨c', hok2, hout2, hin2⟩ := ih c1 (sy + cell.2)
      (fun l hl => hfit l (List.mem_cons_of_mem fs hl))
      (fun l hl => hcoll l (List.mem_cons_of_mem fs hl)) hz1
    refine ⟨c', ?_, ?_, ?_⟩
    · rw [stampLines, hok, except_bind_ok, hok2]
    · intro x y hcond
      obtain ⟨u1, u2, u3⟩ := hout2 x y (by omega)
      obtain ⟨w1, w2, w3⟩ := hout x y (by omega)
      exact ⟨u1.trans w1, u2.trans w2, u3.trans w3⟩
    · intro x y hy
      by_cases hyc : y < sy + cell.2
      · obtain ⟨u1, u2, u3⟩ := hout2 x y (by omega)
        have hi := hin x y (Nat.zero_le x) hy hyc
        rw [u1, u2, u3, hi]
        rw [gridPix, Nat.div_eq_of_lt (by omega), Nat.mod_eq_of_lt (by omega)]
        simp only [List.getElem?_cons_zero, Nat.sub_zero]
      · have hi := hin2 x y (by omega)
        rw [gridPix_cons cell fs rest x (y - sy) hch (by omega),
          show y - sy - cell.2 = y - (sy + cell.2) from by omega]
        exact hi

theorem decodeFrames_ok (anim_name : String) (column_nb : Nat)
    (la ls lo : List Image) (ld : List Nat) (r0 : Nat) (offs : Nat → FrameOffset)
    (hls : ls.length = la.length) (hlo : lo.length = la.length) (hld : ld.length = la.length)
    (hoff : ∀ j, j < la.length →
      FrameOffset.from_images (lo.getD j dImg) (ls.getD j dImg) column_nb (r0 + j) anim_name =
        .ok (offs (r0 + j)))
    (hdur : ∀ j, j < la.length → ld.getD j 0 < 2 ^ 8) :
    decodeFrames anim_name column_nb la ls lo ld r0 =
      .ok ((List.range la.length).map fun j =>
        { duration := ld.getD j 0, image := la.getD j dImg, offsets := offs (r0 + j) }) := by
  induction la generalizing ls lo ld r0 with
  | nil =>
    cases ls with
    | cons s ss => exact absurd hls (by simp)
    | nil =>
      cases lo with
      | cons o os => exact absurd hlo (by simp)
      | nil =>
        cases ld with
        | cons d ds => exact absurd hld (by simp)
        | nil => rfl
  | cons a as ih =>
    cases ls with
    | nil => exact absurd hls (by simp)
    | cons s ss =>
      cases lo with
      | nil => exact absurd hlo (by simp)
      | cons o os =>
        cases ld with
        | nil => exact absurd hld (by simp)
        | cons d ds =>
          have h0 := hoff 0 (by simp)
          simp only [List.getD_cons_zero, Nat.add_zero] at h0
          have hrest := ih ss os ds (r0 + 1) (by simpa using hls) (by simpa using hlo)
            (by simpa using hld)
            (fun j hj => by
              have := hoff (j + 1) (by simpa using hj)
              simpa [List.getD_cons_succ, Nat.add_assoc, Nat.add_comm 1 j] using this)
            (fun j hj => by
              have := hdur (j + 1) (by simpa using hj)
              simpa [List.getD_cons_succ] using this)
          have hd0 := hdur 0 (by simp)
          simp only [List.getD_cons_zero] at hd0
          rw [decodeFrames, h0, except_bind_ok, hrest, except_bind_ok, if_pos hd0]
          rw [List.length_cons, List.range_succ_eq_map, List.map_cons, List.map_map]
          congr 2
          apply List.map_congr_left
          intro j hj
          simp only [Function.comp_apply, List.getD_cons_succ]
          rw [show r0 + 1 + j = r0 + (j + 1) from by omega]

theorem decodeColumns_ok (anim_name : String) (durations : List Nat)
    (ga gs go : List (List Image)) (c0 : Nat) (res : Nat → List Frame)
    (hls : gs.length = ga.length) (hlo : go.length = ga.length)
    (hcols : ∀ i, i < ga.length →
      (ga.getD i []).length = (gs.getD i []).length ∧
      (gs.getD i []).length = (go.getD i []).length ∧
      (ga.getD i []).length = durations.length ∧
      decodeFrames anim_name (c0 + i) (ga.getD i []) (gs.getD i []) (go.getD i [])
        durations 0 = .ok (res (c0 + i))) :
    decodeColumns anim_name durations ga gs go c0 =
      .ok ((List.range ga.length).map fun i => res (c0 + i)) := by
  induction ga generalizing gs go c0 with
  | nil =>
    cases gs with
    | cons s ss => exact absurd hls (by simp)
    | nil =>
      cases go with
      | cons o os => exact absurd hlo (by simp)
      | nil => rfl
  | cons a as ih =>
    cases gs with
    | nil => exact absurd hls (by simp)
    | cons s ss =>
      cases go with
      | nil => exact absurd hlo (by simp)
      | cons o os =>
        have h0 := hcols 0 (by simp)
        simp only [List.getD_cons_zero, Nat.add_zero] at h0
        obtain ⟨e1, e2, e3, hdec⟩ := h0
        have hrest := ih ss os (c0 + 1) (by simpa using hls) (by simpa using hlo)
          (fun i hi => by
            have := hcols (i + 1) (by simpa using hi)
            simpa [List.getD_cons_succ, Nat.add_assoc, Nat.add_comm 1 i] using this)
        rw [decodeColumns, if_neg (by omega), if_neg (by omega), hdec, except_bind_ok,
          hrest, except_bind_ok]
        rw [List.length_cons, List.range_succ_eq_map, List.map_cons, List.map_map]
        congr 2
        apply List.map_congr_left
        intro i hi
        simp only [Function.comp_apply]
        rw [show c0 + 1 + i = c0 + (i + 1) from by omega]

theorem maxRow_uniform (a : Animation) (l0 : List Frame) (rest : List (List Frame))
    (himg : a.images = l0 :: rest)
    (huni : ∀ fs ∈ a.images, fs.length = l0.length) (hpos : 1 ≤ l0.length) :
    maxRowCount a = l0.length := by
  rw [maxRowCount_eq]
  have hle : listMax (a.images.map List.length) ≤ l0.length := by
    apply listMax_le
    intro x hx
    rw [List.mem_map] at hx
    obtain ⟨fs, hfs, rfl⟩ := hx
    exact Nat.le_of_eq (huni fs hfs)
  have hge : l0.length ≤ listMax (a.images.map List.length) := by
    apply le_listMax_of_mem
    rw [himg, List.map_cons]
    exact List.mem_cons_self _ _
  omega

theorem generate_sheet_pix (a : Animation)
    (h1 : maxRowCount a < 2 ^ 32) (h2 : a.images.length < 2 ^ 32)
    (hcoll : ∀ fs ∈ a.images, ∀ f ∈ fs, ¬headCollision f) :
    ∃ A O S, a.generate_sheet = .ok (maxCellSize a, A, O, S) ∧
      A.width = (maxCellSize a).1 * maxRowCount a % 2 ^ 32 ∧
      A.height = (maxCellSize a).2 * a.images.length % 2 ^ 32 ∧
      O.width = A.width ∧ O.height = A.height ∧ S.width = A.width ∧ S.height = A.height ∧
      ∀ x y, (A.pix x y, O.pix x y, S.pix x y) = gridPix (maxCellSize a) a.images x y := by
  have hcw : 0 < (maxCellSize a).1 := by have := cell_floor a; omega
  have hch : 0 < (maxCellSize a).2 := by have := cell_floor a; omega
  have hfit : ∀ fs ∈ a.images, ∀ f ∈ fs, frameFits (maxCellSize a) f := by
    intro fs hfs f hf
    exact frameFits_of_mem a f (mem_allFrames a fs f hfs hf)
  obtain ⟨c', hok, hunch, hpix⟩ := stampLines_pix (maxCellSize a) a.images
    (Image.new ((maxCellSize a).1 * maxRowCount a % 2 ^ 32)
      ((maxCellSize a).2 * a.images.length % 2 ^ 32),
     Image.new ((maxCellSize a).1 * maxRowCount a % 2 ^ 32)
      ((maxCellSize a).2 * a.images.length % 2 ^ 32),
     Image.new ((maxCellSize a).1 * maxRowCount a % 2 ^ 32)
      ((maxCellSize a).2 * a.images.length % 2 ^ 32))
    0 hcw hch hfit hcoll (fun x y _ => ⟨rfl, rfl, rfl⟩)
  have hdims := stampLines_dims _ _ _ _ _ hok
  refine ⟨c'.1, c'.2.1, c'.2.2, ?_, ?_, ?_, ?_, ?_, ?_, ?_, ?_⟩
  · rw [generate_sheet_eq_stamp a h1 h2, hok, except_bind_ok]
  · exact congrArg (fun t => t.1.1) hdims
  · exact congrArg (fun t => t.1.2) hdims
  · exact (congrArg (fun t => t.2.1.1) hdims).trans
      (congrArg (fun t => t.1.1) hdims).symm
  · exact (congrArg (fun t => t.2.1.2) hdims).trans
      (congrArg (fun t => t.1.2) hdims).symm
  · exact (congrArg (fun t => t.2.2.1) hdims).trans
      (congrArg (fun t => t.1.1) hdims).symm
  · exact (congrArg (fun t => t.2.2.2) hdims).trans
      (congrArg (fun t => t.1.2) hdims).symm
  · intro x y
    have := hpix x y (Nat.zero_le y)
    rwa [Nat.sub_zero] at this

theorem cell_from_images (O S : Image) (cw ch : Nat) (o : FrameOffset)
    (i j c r0 : Nat) (name : String)
    (hb : o.head.1 < cw ∧ o.head.2 < ch ∧ o.hand_left.1 < cw ∧ o.hand_left.2 < ch ∧
      o.hand_right.1 < cw ∧ o.hand_right.2 < ch ∧ o.center.1 < cw ∧ o.center.2 < ch ∧
      o.shadow.1 < cw ∧ o.shadow.2 < ch)
    (h16 : o.head.1 < 2 ^ 16 ∧ o.head.2 < 2 ^ 16 ∧ o.hand_left.1 < 2 ^ 16 ∧
      o.hand_left.2 < 2 ^ 16 ∧ o.hand_right.1 < 2 ^ 16 ∧ o.hand_right.2 < 2 ^ 16 ∧
      o.center.1 < 2 ^ 16 ∧ o.center.2 < 2 ^ 16 ∧ o.shadow.1 < 2 ^ 16 ∧
      o.shadow.2 < 2 ^ 16)
    (hne1 : o.head ≠ o.hand_left) (hne2 : o.head ≠ o.hand_right)
    (hO : ∀ u v, u < cw → v < ch →
      O.pix (j * cw + u) (i * ch + v) = offsetsCellPix o u v)
    (hS : ∀ u v, u < cw → v < ch →
      S.pix (j * cw + u) (i * ch + v) = shadowCellPix o u v) :
    FrameOffset.from_images (O.view (j * cw) (i * ch) cw ch)
      (S.view (j * cw) (i * ch) cw ch) c r0 name = .ok o := by
  obtain ⟨b1, b2, b3, b4, b5, b6, b7, b8, b9, b10⟩ := hb
  obtain ⟨x1, x2, x3, x4, x5, x6, x7, x8, x9, x10⟩ := h16
  have hred : matchesExactlyAt (O.view (j * cw) (i * ch) cw ch) redPred
      o.hand_left.1 o.hand_left.2 := by
    refine ⟨b3, b4, ?_⟩
    intro u v hu hv
    rw [show (O.view (j * cw) (i * ch) cw ch).pix u v =
      O.pix (j * cw + u) (i * ch + v) from rfl, hO u v hu hv]
    exact offsetsCellPix_red o u v
  have hgreen : matchesExactlyAt (O.view (j * cw) (i * ch) cw ch) greenPred
      o.center.1 o.center.2 := by
    refine ⟨b7, b8, ?_⟩
    intro u v hu hv
    rw [show (O.view (j * cw) (i * ch) cw ch).pix u v =
      O.pix (j * cw + u) (i * ch + v) from rfl, hO u v hu hv]
    exact offsetsCellPix_green o u v
  have hblue : matchesExactlyAt (O.view (j * cw) (i * ch) cw ch) bluePred
      o.hand_right.1 o.hand_right.2 := by
    refine ⟨b5, b6, ?_⟩
    intro u v hu hv
    rw [show (O.view (j * cw) (i * ch) cw ch).pix u v =
      O.pix (j * cw + u) (i * ch + v) from rfl, hO u v hu hv]
    exact offsetsCellPix_blue o u v
  have hwhite : matchesExactlyAt (S.view (j * cw) (i * ch) cw ch) whitePred
      o.shadow.1 o.shadow.2 := by
    refine ⟨b9, b10, ?_⟩
    intro u v hu hv
    rw [show (S.view (j * cw) (i * ch) cw ch).pix u v =
      S.pix (j * cw + u) (i * ch + v) from rfl, hS u v hu hv]
    exact shadowCellPix_white o u v
  by_cases hhc : o.head = o.center
  · have hnone : matchesNone (O.view (j * cw) (i * ch) cw ch) blackPred := by
      intro u v hu hv
      rw [show (O.view (j * cw) (i * ch) cw ch).pix u v =
        O.pix (j * cw + u) (i * ch + v) from rfl, hO u v hu hv]
      cases hB : blackPred (offsetsCellPix o u v) with
      | false => rfl
      | true =>
        obtain ⟨hp, hnc⟩ := (offsetsCellPix_black o u v hne1 hne2).mp hB
        have e1 := congrArg Prod.fst hhc
        have e2 := congrArg Prod.snd hhc
        exact absurd ⟨hp.1.trans e1, hp.2.trans e2⟩ hnc
    rw [from_images_success (O.view (j * cw) (i * ch) cw ch)
      (S.view (j * cw) (i * ch) cw ch) name c r0 none (.inl ⟨hnone, rfl⟩)
      o.hand_left.1 o.hand_left.2 o.center.1 o.center.2 o.hand_right.1 o.hand_right.2
      o.shadow.1 o.shadow.2 hred x3 x4 hgreen x7 x8 hblue x5 x6 hwhite x9 x10]
    have e3 : (none : Option (Nat × Nat)).getD (o.center.1, o.center.2) = o.head := by
      rw [hhc]
      rfl
    rw [e3]
  · have hexact : matchesExactlyAt (O.view (j * cw) (i * ch) cw ch) blackPred
        o.head.1 o.head.2 := by
      refine ⟨b1, b2, ?_⟩
      intro u v hu hv
      rw [show (O.view (j * cw) (i * ch) cw ch).pix u v =
        O.pix (j * cw + u) (i * ch + v) from rfl, hO u v hu hv]
      constructor
      · intro hB
        exact ((offsetsCellPix_black o u v hne1 hne2).mp hB).1
      · intro hp
        refine (offsetsCellPix_black o u v hne1 hne2).mpr ⟨hp, ?_⟩
        intro hc
        exact hhc (Prod.ext (hp.1.symm.trans hc.1) (hp.2.symm.trans hc.2))
    rw [from_images_success (O.view (j * cw) (i * ch) cw ch)
      (S.view (j * cw) (i * ch) cw ch) name c r0 (some (o.head.1, o.head.2))
      (.inr ⟨o.head.1, o.head.2, hexact, x1, x2, rfl⟩)
      o.hand_left.1 o.hand_left.2 o.center.1 o.center.2 o.hand_right.1 o.hand_right.2
      o.shadow.1 o.shadow.2 hred x3 x4 hgreen x7 x8 hblue x5 x6 hwhite x9 x10]
    rfl

theorem getD_map_range {α : Type} (n i : Nat) (F : Nat → α) (d : α) (hi : i < n) :
    ((List.range n).map F).getD i d = F i := by
  rw [List.getD_eq_getElem _ _ (by simpa using hi)]
  simp

theorem getD_mem {α : Type} (l : List α) (j : Nat) (d : α) (hj : j < l.length) :
    l.getD j d ∈ l := by
  rw [List.getD_eq_getElem _ _ hj]
  exact List.getElem_mem hj

theorem getElem?_getD {α : Type} (l : List α) (j : Nat) (d : α) (hj : j < l.length) :
    l[j]? = some (l.getD j d) := by
  rw [List.getD_eq_getElem _ _ hj]
  exact List.getElem?_eq_getElem hj

theorem getD_map_duration (l : List Frame) (j : Nat) (hj : j < l.length) :
    (l.map (fun f => f.duration)).getD j 0 = (l.getD j dFrame).duration := by
  rw [List.getD_eq_getElem _ _ (by simpa using hj), List.getD_eq_getElem _ _ hj]
  simp

theorem line_decode (name : String) (A O S : Image) (cw ch : Nat) (cIdx i : Nat)
    (lines : List (List Frame)) (fsi : List Frame) (durs : List Nat)
    (hcw : 0 < cw) (hch : 0 < ch)
    (hline : lines[i]? = some fsi)
    (hpix : ∀ x y, (A.pix x y, O.pix x y, S.pix x y) = gridPix (cw, ch) lines x y)
    (hfit : ∀ f ∈ fsi, frameFits (cw, ch) f)
    (h16 : ∀ f ∈ fsi,
      f.offsets.head.1 < 2 ^ 16 ∧ f.offsets.head.2 < 2 ^ 16 ∧
      f.offsets.hand_left.1 < 2 ^ 16 ∧ f.offsets.hand_left.2 < 2 ^ 16 ∧
      f.offsets.hand_right.1 < 2 ^ 16 ∧ f.offsets.hand_right.2 < 2 ^ 16 ∧
      f.offsets.center.1 < 2 ^ 16 ∧ f.offsets.center.2 < 2 ^ 16 ∧
      f.offsets.shadow.1 < 2 ^ 16 ∧ f.offsets.shadow.2 < 2 ^ 16)
    (hne : ∀ f ∈ fsi,
      f.offsets.head ≠ f.offsets.hand_left ∧ f.offsets.head ≠ f.offsets.hand_right)
    (hdurs : ∀ j, j < fsi.length → durs.getD j 0 = (fsi.getD j dFrame).duration)
    (hdur8 : ∀ f ∈ fsi, f.duration < 2 ^ 8)
    (hlen : durs.length = fsi.length) :
    decodeFrames name cIdx
      ((List.range fsi.length).map fun row => A.view (row * cw) (i * ch) cw ch)
      ((List.range fsi.length).map fun row => S.view (row * cw) (i * ch) cw ch)
      ((List.range fsi.length).map fun row => O.view (row * cw) (i * ch) cw ch)
      durs 0 =
      .ok ((List.range fsi.length).map fun j =>
        { duration := durs.getD j 0,
          image := A.view (j * cw) (i * ch) cw ch,
          offsets := (fsi.getD j dFrame).offsets }) := by
  have hfr : ∀ j, j < fsi.length → fsi.getD j dFrame ∈ fsi :=
    fun j hj => getD_mem fsi j dFrame hj
  rw [decodeFrames_ok name cIdx
    ((List.range fsi.length).map fun row => A.view (row * cw) (i * ch) cw ch)
    ((List.range fsi.length).map fun row => S.view (row * cw) (i * ch) cw ch)
    ((List.range fsi.length).map fun row => O.view (row * cw) (i * ch) cw ch)
    durs 0 (fun r => (fsi.getD r dFrame).offsets)
    (by simp) (by simp) (by simpa using hlen)
    (by
      intro j hj
      have hj2 : j < fsi.length := by simpa using hj
      rw [getD_map_range _ _ _ _ hj2, getD_map_range _ _ _ _ hj2, Nat.zero_add]
      have hf := hfr j hj2
      have hfj : fsi[j]? = some (fsi.getD j dFrame) := getElem?_getD fsi j dFrame hj2
      have hfitj := hfit _ hf
      unfold frameFits at hfitj
      obtain ⟨w1, w2, w3, w4, w5, w6, w7, w8, w9, w10, w11, w12⟩ := hfitj
      have hnej := hne _ hf
      apply cell_from_images O S cw ch (fsi.getD j dFrame).offsets i j cIdx j name
        ⟨w3, w4, w5, w6, w7, w8, w9, w10, w11, w12⟩ (h16 _ hf) hnej.1 hnej.2
      · intro u v hu hv
        have h := congrArg (fun t => t.2.1) (hpix (j * cw + u) (i * ch + v))
        rw [gridPix_at (cw, ch) lines i j u v fsi (fsi.getD j dFrame) hch hu hv
          hline hfj] at h
        exact h
      · intro u v hu hv
        have h := congrArg (fun t => t.2.2) (hpix (j * cw + u) (i * ch + v))
        rw [gridPix_at (cw, ch) lines i j u v fsi (fsi.getD j dFrame) hch hu hv
          hline hfj] at h
        exact h)
    (by
      intro j hj
      have hj2 : j < fsi.length := by simpa using hj
      rw [hdurs j hj2]
      exact hdur8 _ (hfr j hj2))]
  simp only [List.length_map, List.length_range]
  congr 1
  apply List.map_congr_left
  intro j hj
  have hj2 := List.mem_range.mp hj
  rw [getD_map_range _ _ _ _ hj2, Nat.zero_add]

theorem get_eq_getD {α : Type} (l : List α) (i : Nat) (d : α) (hi : i < l.length) :
    l.get ⟨i, hi⟩ = l.getD i d := by
  rw [List.getD_eq_getElem _ _ hi]
  rfl

theorem get_map_range {α : Type} (n i : Nat) (F : Nat → α)
    (h : i < ((List.range n).map F).length) :
    ((List.range n).map F).get ⟨i, h⟩ = F i := by
  simp [List.get_eq_getElem]

theorem animation_roundtrip (a : Animation) (hwf : AnimationWF a) (vfs : Store)
    (cell : Nat × Nat) (A O S : Image)
    (hgen : a.generate_sheet = .ok (cell, A, O, S))
    (hA : vfs.read (sheetPath a.name "Anim") = some A)
    (hO : vfs.read (sheetPath a.name "Offsets") = some O)
    (hS : vfs.read (sheetPath a.name "Shadow") = some S) :
    ∃ dec, decodeAnimation vfs
        { name := a.name, index := a.index, rush_frame := a.rush_frame,
          hit_frame := a.hit_frame, return_frame := a.return_frame,
          frame_width := cell.1, frame_height := cell.2,
          durations := (a.images.headD []).map (fun x => x.duration) } = .ok dec ∧
      AnimationPreserved a dec := by
  obtain ⟨huni, hpos, h16, hdurU, hdur8, hnc, hw32, hh32⟩ := hwf
  have hc8 := cell_floor a
  have h1 : maxRowCount a < 2 ^ 32 := by
    have h := Nat.le_mul_of_pos_left (maxRowCount a) (show 0 < (maxCellSize a).1 by omega)
    omega
  have h2 : a.images.length < 2 ^ 32 := by
    have h := Nat.le_mul_of_pos_left a.images.length (show 0 < (maxCellSize a).2 by omega)
    omega
  have hcoll : ∀ fs ∈ a.images, ∀ f ∈ fs, ¬headCollision f := by
    intro fs hfs f hf hc
    obtain ⟨hn1, hn2⟩ := hnc fs hfs f hf
    rcases hc with h | h
    · exact hn1 h
    · exact hn2 h
  obtain ⟨A2, O2, S2, hgen2, hAw, hAh, hOw, hOh, hSw, hSh, hpix⟩ :=
    generate_sheet_pix a h1 h2 hcoll
  rw [hgen2] at hgen
  injection hgen with hgen
  have e1 : maxCellSize a = cell := congrArg Prod.fst hgen
  have e2 : A2 = A := congrArg (fun t => t.2.1) hgen
  have e3 : O2 = O := congrArg (fun t => t.2.2.1) hgen
  have e4 : S2 = S := congrArg (fun t => t.2.2.2) hgen
  clear hgen
  subst e1
  subst e2
  subst e3
  subst e4
  cases himg : a.images with
  | nil =>
    have hrow : maxRowCount a = 1 := by
      rw [maxRowCount_eq, himg]
      rfl
    rw [hrow, Nat.mul_one] at hw32
    have hWA : A2.width = (maxCellSize a).1 := by
      rw [hAw, hrow, Nat.mul_one]
      exact Nat.mod_eq_of_lt hw32
    have hHA : A2.height = 0 := by
      rw [hAh, himg]
      rfl
    have hga := get_image_ok vfs A2 a.name "Anim" (maxCellSize a).1 (maxCellSize a).2 hA
      (by omega) (by omega) (by rw [hWA]; exact Nat.mod_self _)
      (by rw [hHA]; exact Nat.zero_mod _)
    have hgo := get_image_ok vfs O2 a.name "Offsets" (maxCellSize a).1 (maxCellSize a).2 hO
      (by omega) (by omega) (by rw [hOw, hWA]; exact Nat.mod_self _)
      (by rw [hOh, hHA]; exact Nat.zero_mod _)
    have hgs := get_image_ok vfs S2 a.name "Shadow" (maxCellSize a).1 (maxCellSize a).2 hS
      (by omega) (by omega) (by rw [hSw, hWA]; exact Nat.mod_self _)
      (by rw [hSh, hHA]; exact Nat.zero_mod _)
    rw [hHA] at hga
    rw [hOh, hHA] at hgo
    rw [hSh, hHA] at hgs
    simp only [Nat.zero_div, List.range_zero, List.map_nil] at hga hgo hgs
    refine ⟨{ name := a.name, index := a.index, rush_frame := a.rush_frame,
              hit_frame := a.hit_frame, return_frame := a.return_frame,
              images := [] }, ?_, ?_⟩
    · simp only [decodeAnimation]
      rw [hga, except_bind_ok, hgs, except_bind_ok, hgo, except_bind_ok]
      rfl
    · refine ⟨rfl, rfl, rfl, rfl, rfl, ?_, ?_⟩
      · rw [himg]
      · intro i hi hi2
        rw [himg] at hi
        exact absurd hi (by simp)
  | cons l0 rest =>
    have hl0mem : l0 ∈ a.images := by
      rw [himg]
      exact List.mem_cons_self _ _
    have hL : 1 ≤ l0.length := by
      rcases hpos with h | h
      · rw [himg] at h
        exact absurd h (by simp)
      · rw [himg] at h
        simpa using h
    have huni' : ∀ fs ∈ a.images, fs.length = l0.length := by
      intro fs hfs
      have h := huni fs hfs
      rw [himg] at h
      simpa using h
    have hrow : maxRowCount a = l0.length := maxRow_uniform a l0 rest himg huni' hL
    rw [hrow] at hw32
    have hWA : A2.width = (maxCellSize a).1 * l0.length := by
      rw [hAw, hrow]
      exact Nat.mod_eq_of_lt hw32
    have hHA : A2.height = (maxCellSize a).2 * a.images.length := by
      rw [hAh]
      exact Nat.mod_eq_of_lt hh32
    have hcw : (0:Nat) < (maxCellSize a).1 := by omega
    have hch : (0:Nat) < (maxCellSize a).2 := by omega
    have hdivW : A2.width % (maxCellSize a).1 = 0 := by
      rw [hWA]
      exact Nat.mul_mod_right _ _
    have hdivH : A2.height % (maxCellSize a).2 = 0 := by
      rw [hHA]
      exact Nat.mul_mod_right _ _
    have hWq : A2.width / (maxCellSize a).1 = l0.length := by
      rw [hWA]
      exact Nat.mul_div_cancel_left _ hcw
    have hHq : A2.height / (maxCellSize a).2 = a.images.length := by
      rw [hHA]
      exact Nat.mul_div_cancel_left _ hch
    have hga := get_image_ok vfs A2 a.name "Anim" (maxCellSize a).1 (maxCellSize a).2 hA
      (by omega) (by omega) hdivW hdivH
    rw [hWq, hHq] at hga
    have hgo := get_image_ok vfs O2 a.name "Offsets" (maxCellSize a).1 (maxCellSize a).2 hO
      (by omega) (by omega) (by rw [hOw]; exact hdivW) (by rw [hOh]; exact hdivH)
    rw [show O2.width / (maxCellSize a).1 = l0.length from by rw [hOw]; exact hWq,
      show O2.height / (maxCellSize a).2 = a.images.length from by rw [hOh]; exact hHq] at hgo
    have hgs := get_image_ok vfs S2 a.name "Shadow" (maxCellSize a).1 (maxCellSize a).2 hS
      (by omega) (by omega) (by rw [hSw]; exact hdivW) (by rw [hSh]; exact hdivH)
    rw [show S2.width / (maxCellSize a).1 = l0.length from by rw [hSw]; exact hWq,
      show S2.height / (maxCellSize a).2 = a.images.length from by rw [hSh]; exact hHq] at hgs
    have hdurslen : (l0.map (fun x => x.duration)).length = l0.length := by
      simp
    have hdursfsi : ∀ fs ∈ a.images, ∀ j, j < fs.length →
        (l0.map (fun x => x.duration)).getD j 0 = (fs.getD j dFrame).duration := by
      intro fs hfs j hj
      have h := hdurU fs hfs
      rw [himg] at h
      simp only [List.headD_cons] at h
      rw [← h]
      exact getD_map_duration fs j hj
    have hcolseq := decodeColumns_ok a.name (l0.map (fun x => x.duration))
      ((List.range a.images.length).map fun column =>
        (List.range l0.length).map fun row =>
          A2.view (row * (maxCellSize a).1) (column * (maxCellSize a).2)
            (maxCellSize a).1 (maxCellSize a).2)
      ((List.range a.images.length).map fun column =>
        (List.range l0.length).map fun row =>
          S2.view (row * (maxCellSize a).1) (column * (maxCellSize a).2)
            (maxCellSize a).1 (maxCellSize a).2)
      ((List.range a.images.length).map fun column =>
        (List.range l0.length).map fun row =>
          O2.view (row * (maxCellSize a).1) (column * (maxCellSize a).2)
            (maxCellSize a).1 (maxCellSize a).2)
      0
      (fun i => (List.range l0.length).map fun j =>
        { duration := (l0.map (fun x => x.duration)).getD j 0,
          image := A2.view (j * (maxCellSize a).1) (i * (maxCellSize a).2)
            (maxCellSize a).1 (maxCellSize a).2,
          offsets := ((a.images.getD i []).getD j dFrame).offsets })
      (by simp) (by simp)
      (by
        intro i hi
        have hi2 : i < a.images.length := by simpa using hi
        have hfsiMem : a.images.getD i [] ∈ a.images := getD_mem _ i [] hi2
        have hlenfsi : (a.images.getD i []).length = l0.length := huni' _ hfsiMem
        have hline : a.images[i]? = some (a.images.getD i []) := getElem?_getD _ i [] hi2
        rw [getD_map_range _ _ _ _ hi2, getD_map_range _ _ _ _ hi2,
          getD_map_range _ _ _ _ hi2]
        refine ⟨by simp, by simp, by simp, ?_⟩
        rw [← hlenfsi, Nat.zero_add]
        rw [line_decode a.name A2 O2 S2 (maxCellSize a).1 (maxCellSize a).2 i i
          a.images (a.images.getD i []) (l0.map (fun x => x.duration))
          hcw hch hline hpix
          (fun f hf => frameFits_of_mem a f (mem_allFrames a _ f hfsiMem hf))
          (fun f hf => h16 _ hfsiMem f hf)
          (fun f hf => hnc _ hfsiMem f hf)
          (fun j hj => hdursfsi _ hfsiMem j hj)
          (fun f hf => hdur8 _ hfsiMem f hf)
          (by rw [hdurslen, hlenfsi])])
    have hdec : decodeAnimation vfs
        { name := a.name, index := a.index, rush_frame := a.rush_frame,
          hit_frame := a.hit_frame, return_frame := a.return_frame,
          frame_width := (maxCellSize a).1, frame_height := (maxCellSize a).2,
          durations := (a.images.headD []).map (fun x => x.duration) } =
        .ok { name := a.name, index := a.index, rush_frame := a.rush_frame,
              hit_frame := a.hit_frame, return_frame := a.return_frame,
              images := (List.range a.images.length).map fun i =>
                (List.range l0.length).map fun j =>
                  { duration := (l0.map (fun x => x.duration)).getD j 0,
                    image := A2.view (j * (maxCellSize a).1) (i * (maxCellSize a).2)
                      (maxCellSize a).1 (maxCellSize a).2,
                    offsets := ((a.images.getD i []).getD j dFrame).offsets } } := by
      simp only [decodeAnimation, himg, List.headD_cons]
      rw [hga, except_bind_ok, hgs, except_bind_ok, hgo, except_bind_ok,
        if_neg (by simp), hcolseq, except_bind_ok]
      simp only [List.length_map, List.length_range, Nat.zero_add]
      simp only [← himg]
    rw [← himg]
    refine ⟨_, hdec, ?_⟩
    refine ⟨rfl, rfl, rfl, rfl, rfl, by simp, ?_⟩
    intro i hi hi2
    have hfsiMem : a.images.getD i [] ∈ a.images := getD_mem _ i [] hi
    have hlenfsi : (a.images.getD i []).length = l0.length := huni' _ hfsiMem
    have horig : a.images.get ⟨i, hi⟩ = a.images.getD i [] := get_eq_getD _ i [] hi
    rw [get_map_range, horig]
    constructor
    · rw [hlenfsi]
      simp
    · intro j hj hj2
      have hj3 : j < l0.length := by simpa using hj2
      have hjf : j < (a.images.getD i []).length := by omega
      have hforig : (a.images.getD i []).get ⟨j, hj⟩ = (a.images.getD i []).getD j dFrame :=
        get_eq_getD _ j dFrame hj
      rw [hforig, get_map_range]
      have hfmem : (a.images.getD i []).getD j dFrame ∈ a.images.getD i [] :=
        getD_mem _ j dFrame hjf
      have hfit := frameFits_of_mem a _ (mem_allFrames a _ _ hfsiMem hfmem)
      unfold frameFits at hfit
      refine ⟨?_, rfl, ?_⟩
      · exact hdursfsi _ hfsiMem j hjf
      · intro x y hx hy
        have hline : a.images[i]? = some (a.images.getD i []) := getElem?_getD _ i [] hi
        have hfj : (a.images.getD i [])[j]? = some ((a.images.getD i []).getD j dFrame) :=
          getElem?_getD _ j dFrame hjf
        have hpx := congrArg (fun t => t.1)
          (hpix (j * (maxCellSize a).1 + x) (i * (maxCellSize a).2 + y))
        rw [gridPix_at ((maxCellSize a).1, (maxCellSize a).2) a.images i j x y
          (a.images.getD i []) ((a.images.getD i []).getD j dFrame) hch
          (by omega) (by omega) hline hfj] at hpx
        exact hpx.trans (if_pos ⟨hx, hy⟩)

theorem store_read_write_hit (s : Store) (p : String) (img : Image) :
    (s.write p img).read p = some img := by
  simp [Store.write, Store.read, List.find?_cons]

theorem store_read_write_miss (s : Store) (p q : String) (img : Image) (h : p ≠ q) :
    (s.write p img).read q = s.read q := by
  simp [Store.write, Store.read, List.find?_cons, h]

theorem generate_sheet_ok_of_wf (b : Animation) (h : AnimationWF b) :
    ∃ cell A O S, b.generate_sheet = .ok (cell, A, O, S) := by
  obtain ⟨hu, hp, h16b, hdU, hd8, hnc, hw32, hh32⟩ := h
  have hc8 := cell_floor b
  have h1 : maxRowCount b < 2 ^ 32 := by
    have h := Nat.le_mul_of_pos_left (maxRowCount b) (show 0 < (maxCellSize b).1 by omega)
    omega
  have h2 : b.images.length < 2 ^ 32 := by
    have h := Nat.le_mul_of_pos_left b.images.length (show 0 < (maxCellSize b).2 by omega)
    omega
  have hcoll : ∀ fs ∈ b.images, ∀ f ∈ fs, ¬headCollision f := by
    intro fs hfs f hf hc
    obtain ⟨hn1, hn2⟩ := hnc fs hfs f hf
    rcases hc with hx | hx
    · exact hn1 hx
    · exact hn2 hx
  obtain ⟨A, O, S, hok, _⟩ := generate_sheet_pix b h1 h2 hcoll
  exact ⟨_, A, O, S, hok⟩

theorem encodeAnims_roundtrip (anims : List Animation) (vfs : Store)
    (hwf : ∀ b ∈ anims, AnimationWF b)
    (hnames : anims.Pairwise (fun b c => b.name ≠ c.name)) :
    ∃ entries vfs2, encodeAnims vfs anims = .ok (entries, vfs2) ∧
      (∀ p, (∀ b ∈ anims, p ≠ sheetPath b.name "Anim" ∧ p ≠ sheetPath b.name "Offsets" ∧
        p ≠ sheetPath b.name "Shadow") → vfs2.read p = vfs.read p) ∧
      ∃ decs, decodeAnims vfs2 entries = .ok decs ∧
        decs.length = anims.length ∧
        ∀ k (hk : k < anims.length) (hk2 : k < decs.length),
          AnimationPreserved (anims.get ⟨k, hk⟩) (decs.get ⟨k, hk2⟩) := by
  induction anims generalizing vfs with
  | nil =>
    refine ⟨[], vfs, rfl, fun p _ => rfl, [], rfl, rfl, ?_⟩
    intro k hk hk2
    exact absurd hk (by simp)
  | cons b rest ih =>
    rw [List.pairwise_cons] at hnames
    have hwfb := hwf b (List.mem_cons_self b rest)
    obtain ⟨cell, A, O, S, hgen⟩ := generate_sheet_ok_of_wf b hwfb
    have henc : encodeAnimation vfs b = .ok
        ({ name := b.name, index := b.index, rush_frame := b.rush_frame,
           hit_frame := b.hit_frame, return_frame := b.return_frame,
           frame_width := cell.1, frame_height := cell.2,
           durations := (b.images.headD []).map (fun x => x.duration) },
         ((vfs.write (sheetPath b.name "Anim") A).write (sheetPath b.name "Offsets") O).write
           (sheetPath b.name "Shadow") S) := by
      simp only [encodeAnimation]
      rw [hgen, except_bind_ok]
    obtain ⟨entriesR, vfs2, hencR, hpres, decsR, hdecR, hlenR, hpreR⟩ :=
      ih (((vfs.write (sheetPath b.name "Anim") A).write (sheetPath b.name "Offsets") O).write
        (sheetPath b.name "Shadow") S)
      (fun c hc => hwf c (List.mem_cons_of_mem b hc)) hnames.2
    have hownA : vfs2.read (sheetPath b.name "Anim") = some A := by
      rw [hpres _ (by
        intro c hc
        have hbc := hnames.1 c hc
        exact ⟨sheetPath_ne_name b.name c.name "Anim" "Anim" hbc (.inl rfl) (.inl rfl),
          sheetPath_ne_name b.name c.name "Anim" "Offsets" hbc (.inl rfl) (.inr (.inl rfl)),
          sheetPath_ne_name b.name c.name "Anim" "Shadow" hbc (.inl rfl) (.inr (.inr rfl))⟩)]
      rw [store_read_write_miss _ _ _ _ (sheetPath_ne_kind b.name b.name "Shadow" "Anim"
        (.inr (.inr rfl)) (.inl rfl) (by decide))]
      rw [store_read_write_miss _ _ _ _ (sheetPath_ne_kind b.name b.name "Offsets" "Anim"
        (.inr (.inl rfl)) (.inl rfl) (by decide))]
      exact store_read_write_hit vfs _ A
    have hownO : vfs2.read (sheetPath b.name "Offsets") = some O := by
      rw [hpres _ (by
        intro c hc
        have hbc := hnames.1 c hc
        exact ⟨sheetPath_ne_name b.name c.name "Offsets" "Anim" hbc (.inr (.inl rfl)) (.inl rfl),
          sheetPath_ne_name b.name c.name "Offsets" "Offsets" hbc (.inr (.inl rfl))
            (.inr (.inl rfl)),
          sheetPath_ne_name b.name c.name "Offsets" "Shadow" hbc (.inr (.inl rfl))
            (.inr (.inr rfl))⟩)]
      rw [store_read_write_miss _ _ _ _ (sheetPath_ne_kind b.name b.name "Shadow" "Offsets"
        (.inr (.inr rfl)) (.inr (.inl rfl)) (by decide))]
      exact store_read_write_hit _ _ O
    have hownS : vfs2.read (sheetPath b.name "Shadow") = some S := by
      rw [hpres _ (by
        intro c hc
        have hbc := hnames.1 c hc
        exact ⟨sheetPath_ne_name b.name c.name "Shadow" "Anim" hbc (.inr (.inr rfl)) (.inl rfl),
          sheetPath_ne_name b.name c.name "Shadow" "Offsets" hbc (.inr (.inr rfl))
            (.inr (.inl rfl)),
          sheetPath_ne_name b.name c.name "Shadow" "Shadow" hbc (.inr (.inr rfl))
            (.inr (.inr rfl))⟩)]
      exact store_read_write_hit _ _ S
    obtain ⟨decB, hdecB, hpreB⟩ := animation_roundtrip b hwfb vfs2 cell A O S hgen
      hownA hownO hownS
    refine ⟨{ name := b.name, index := b.index, rush_frame := b.rush_frame,
              hit_frame := b.hit_frame, return_frame := b.return_frame,
              frame_width := cell.1, frame_height := cell.2,
              durations := (b.images.headD []).map (fun x => x.duration) } :: entriesR,
      vfs2, ?_, ?_, decB :: decsR, ?_, by simp [hlenR], ?_⟩
    · rw [encodeAnims, henc, except_bind_ok]
      dsimp only
      rw [hencR, except_bind_ok]
    · intro p hp
      have hb := hp b (List.mem_cons_self b rest)
      rw [hpres p (fun c hc => hp c (List.mem_cons_of_mem b hc))]
      rw [store_read_write_miss _ _ _ _ (Ne.symm hb.2.2)]
      rw [store_read_write_miss _ _ _ _ (Ne.symm hb.2.1)]
      exact store_read_write_miss _ _ _ _ (Ne.symm hb.1)
    · rw [decodeAnims, hdecB, except_bind_ok, hdecR, except_bind_ok]
    · intro k hk hk2
      cases k with
      | zero => exact hpreB
      | succ k2 =>
        have hk' : k2 < rest.length := by simpa using hk
        have hk2' : k2 < decsR.length := by simpa using hk2
        have e1 : (b :: rest).get ⟨k2 + 1, hk⟩ = rest.get ⟨k2, hk'⟩ := rfl
        have e2 : (decB :: decsR).get ⟨k2 + 1, hk2⟩ = decsR.get ⟨k2, hk2'⟩ := rfl
        rw [e1, e2]
        exact hpreR k2 hk' hk2'

/-- C1 (amended): for every sprite whose animations are pairwise distinctly
named and well formed — uniform positive line lengths (or no lines), all
offset coordinates in `u16` range, durations uniform across lines at each
frame index and in `u8` range, no head/hand collisions (the claim's
`head ≠ hand_left` and `head ≠ hand_right`), and generated sheet dimensions
fitting `u32` — encoding with `write_to_folder` into a fresh store succeeds,
decoding the result with `Sprite.new` succeeds, and the decoded sprite
preserves every frame's image pixels, all five offsets, every duration and
every animation's name, index and optional rush/hit/return frames. -/
theorem C1_roundtrip_amended (sp : Sprite)
    (hwf : ∀ b ∈ sp.animations, AnimationWF b)
    (hnames : sp.animations.Pairwise (fun b c => b.name ≠ c.name)) :
    ∃ xml store dec, sp.write_to_folder [] = .ok (xml, store) ∧
      Sprite.new xml store = .ok dec ∧ SpritePreserved sp dec := by
  obtain ⟨entries, vfs2, henc, hpres, decs, hdec, hlen, hpre⟩ :=
    encodeAnims_roundtrip sp.animations [] hwf hnames
  refine ⟨{ shadow_size := sp.shadow_size, anims := entries }, vfs2,
    { shadow_size := sp.shadow_size, animations := decs }, ?_, ?_, ?_⟩
  · simp only [Sprite.write_to_folder]
    rw [henc, except_bind_ok]
  · simp only [Sprite.new]
    rw [hdec, except_bind_ok]
  · exact ⟨rfl, hlen, hpre⟩

theorem C1_roundtrip_amended_witness :
    (∀ b ∈ okSprite.animations, AnimationWF b) ∧
    okSprite.animations.Pairwise (fun b c => b.name ≠ c.name) ∧
    ∃ xml store dec, okSprite.write_to_folder [] = .ok (xml, store) ∧
      Sprite.new xml store = .ok dec ∧ SpritePreserved okSprite dec := by
  have h1 : ∀ b ∈ okSprite.animations, AnimationWF b := by
    intro b hb
    have hb2 : b = okAnim := List.mem_singleton.mp hb
    subst hb2
    unfold AnimationWF
    refine ⟨by decide, Or.inr (by decide), by decide, by decide, by decide, by decide,
      by decide, by decide⟩
  have h2 : okSprite.animations.Pairwise (fun b c => b.name ≠ c.name) := by
    rw [show okSprite.animations = [okAnim] from rfl]
    exact List.pairwise_singleton _ _
  exact ⟨h1, h2, C1_roundtrip_amended okSprite h1 h2⟩
